import Mathlib

/-!
Verification of the pyq-analyzer question-extraction and topic-clustering
engine.  Python source files are shallowly embedded as executable Lean
functions over `List Char` (`Str`); machine floats are modelled as exact
rationals (with `Real.sqrt` where the code takes square roots).
-/

set_option maxRecDepth 4000
set_option maxHeartbeats 1000000

/-- Python strings are modelled as lists of characters. -/
abbrev Str := List Char

namespace Py

/-- Python `str.isspace` / `\s` character class (ASCII fragment). -/
def isWs (c : Char) : Bool :=
  c == ' ' || c == '\t' || c == '\n' || c == '\r' || c == '\x0b' || c == '\x0c'

/-- `\d` character class. -/
def isDigitC (c : Char) : Bool :=
  decide (48 ≤ c.toNat) && decide (c.toNat ≤ 57)

def isAsciiUpper (c : Char) : Bool :=
  decide (65 ≤ c.toNat) && decide (c.toNat ≤ 90)

def isAsciiLower (c : Char) : Bool :=
  decide (97 ≤ c.toNat) && decide (c.toNat ≤ 122)

/-- `[A-Za-z]` character class. -/
def isAlphaC (c : Char) : Bool := isAsciiUpper c || isAsciiLower c

/-- `\w` character class (ASCII fragment). -/
def isWordC (c : Char) : Bool := isAlphaC c || isDigitC c || c == '_'

/-- Python `str.lower` on one character (ASCII fragment). -/
def lowerC (c : Char) : Char :=
  if isAsciiUpper c then Char.ofNat (c.toNat + 32) else c

/-- Python `str.upper` on one character (ASCII fragment). -/
def upperC (c : Char) : Char :=
  if isAsciiLower c then Char.ofNat (c.toNat - 32) else c

/-- Python `str.lower`. -/
def lower (s : Str) : Str := s.map lowerC

/-- Python `str.strip()`. -/
def strip (s : Str) : Str :=
  ((s.dropWhile isWs).reverse.dropWhile isWs).reverse

/-- Auxiliary scanner for `str.split()` (whitespace splitting). -/
def splitWsAux : Str → Str → List Str
  | [], acc => if acc.isEmpty then [] else [acc.reverse]
  | c :: rest, acc =>
    if isWs c then
      if acc.isEmpty then splitWsAux rest [] else acc.reverse :: splitWsAux rest []
    else splitWsAux rest (c :: acc)

/-- Python `str.split()` with no separator: split on whitespace runs,
dropping empty fields. -/
def splitWs (s : Str) : List Str := splitWsAux s []

/-- `' '.join(tokens)`. -/
def sjoin : List Str → Str
  | [] => []
  | [w] => w
  | w :: v :: rest => w ++ ' ' :: sjoin (v :: rest)

/-- Case-insensitive character comparison, as used by `re.IGNORECASE`. -/
def ciEq (a b : Char) : Bool := lowerC a == lowerC b

/-- Match a literal (`ci` selects case-insensitive matching); returns the
remaining suffix on success. -/
def matchLit (ci : Bool) : Str → Str → Option Str
  | [], s => some s
  | _ :: _, [] => none
  | l :: ls, c :: cs =>
    if (if ci then ciEq l c else l == c) then matchLit ci ls cs else none

/-- Split a maximal run of characters satisfying `p` off the front. -/
def takeRun (p : Char → Bool) (s : Str) : Str × Str :=
  (s.takeWhile p, s.dropWhile p)

/-- Python substring test `needle in hay`. -/
def containsSub (needle : Str) : Str → Bool
  | [] => needle.isEmpty
  | c :: rest => needle.isPrefixOf (c :: rest) || containsSub needle rest

/-- Fuel-indexed worker for `subDel` (fuel bounds the input length, so the
zero-fuel case is unreachable; structural recursion keeps the function
kernel-reducible). -/
def subDelGo (m : Str → Option Nat) : Nat → Str → Str
  | _, [] => []
  | 0, _ :: _ => []
  | f + 1, c :: rest =>
    match m (c :: rest) with
    | some k => subDelGo m f (rest.drop k)
    | none => c :: subDelGo m f rest

/-- Generic deletion-substitution: `m s` returns `some k` when a pattern
match of length `k + 1` starts at the head of `s`; every (leftmost,
non-overlapping) match is removed, as Python `re.sub(pat, '', s)`. -/
def subDel (m : Str → Option Nat) (s : Str) : Str := subDelGo m s.length s

/-- Fuel-indexed worker for `subRep`. -/
def subRepGo (m : Str → Option (Nat × Str)) : Nat → Str → Str
  | _, [] => []
  | 0, _ :: _ => []
  | f + 1, c :: rest =>
    match m (c :: rest) with
    | some (k, rep) => rep ++ subRepGo m f (rest.drop k)
    | none => c :: subRepGo m f rest

/-- Generic replacement-substitution: the matcher also yields the
replacement text for the matched span (of length `k + 1`). -/
def subRep (m : Str → Option (Nat × Str)) (s : Str) : Str := subRepGo m s.length s

/-- Worker for `collapseWs`: the flag records whether the scan is inside
a whitespace run (whose first character has already produced the single
replacement space). -/
def collapseWsF : Bool → Str → Str
  | _, [] => []
  | inRun, c :: rest =>
    if isWs c then
      if inRun then collapseWsF true rest
      else ' ' :: collapseWsF true rest
    else c :: collapseWsF false rest

/-- `re.sub(r'\s+', ' ', s)`: collapse every whitespace run to one space. -/
def collapseWs (s : Str) : Str := collapseWsF false s

/-- Leftmost search: returns the match position together with the
matcher's payload. -/
def searchPos (m : Str → Option α) : Str → Option (Nat × α)
  | [] => (m []).map ((0, ·))
  | c :: rest =>
    match m (c :: rest) with
    | some a => some (0, a)
    | none => (searchPos m rest).map (fun pa => (pa.1 + 1, pa.2))

/-- Python `int` on a string of (ASCII) digits; any other input raises. -/
def pyInt (s : Str) : Except Unit Nat :=
  if s ≠ [] ∧ s.all isDigitC then
    .ok (s.foldl (fun a c => a * 10 + (c.toNat - 48)) 0)
  else .error ()

end Py

/-- Shorthand: Lean string literal to the `List Char` model. -/
def S (s : String) : Str := s.data

/-! ## services/clustering/normalizer.py — `TextNormalizer` -/

namespace TextNormalizer

open Py

/-- `STOPWORDS` set of `TextNormalizer` (normalizer.py lines 15-25). -/
def STOPWORDS : List Str :=
  [ "the", "a", "an", "and", "or", "but", "in", "on", "at", "to", "for",
    "of", "with", "is", "are", "was", "were", "be", "been", "being",
    "have", "has", "had", "do", "does", "did", "can", "could", "will",
    "would", "should", "may", "might", "must", "shall",
    "what", "which", "who", "whom", "whose", "when", "where", "why", "how",
    "explain", "describe", "define", "discuss", "illustrate", "list",
    "mention", "state", "give", "write", "short", "note", "notes",
    "briefly", "detail", "details", "answer", "following", "briefly"
  ].map String.data

/-- Lift a rest-returning matcher to the `subDel` interface (`k + 1`
convention); empty matches are impossible for the patterns below. -/
def toDel (m : Str → Option Str) (s : Str) : Option Nat :=
  match m s with
  | some rest =>
    let L := s.length - rest.length
    if L = 0 then none else some (L - 1)
  | none => none

/-- Consume a case-insensitive literal. -/
def eatLit (ci : Bool) (l : Str) : Str → Option Str := matchLit ci l

/-- Consume one or more `\d`. -/
def eatDigits1 (s : Str) : Option Str :=
  let r := s.dropWhile isDigitC
  if r.length = s.length then none else some r

/-- Pattern `\d{4}` (exactly four digits at this position). -/
def mYear : Str → Option Str
  | a :: b :: c :: d :: r =>
    if isDigitC a && isDigitC b && isDigitC c && isDigitC d then some r else none
  | _ => none

/-- Pattern `\(\d+\s*marks?\)`. -/
def mMarksParen (s : Str) : Option Str := do
  let s ← eatLit true (S "(") s
  let s ← eatDigits1 s
  let s := s.dropWhile isWs
  let s ← eatLit true (S "mark") s
  match eatLit true (S "s)") s with
  | some r => some r
  | none => eatLit true (S ")") s

/-- Pattern `\d+\s*marks?`. -/
def mMarksBare (s : Str) : Option Str := do
  let s ← eatDigits1 s
  let s := s.dropWhile isWs
  let s ← eatLit true (S "mark") s
  some ((eatLit true (S "s") s).getD s)

/-- Pattern `Q\d+[a-z]?` (IGNORECASE). -/
def mQnum (s : Str) : Option Str := do
  let s ← eatLit true (S "q") s
  let s ← eatDigits1 s
  some (match s with
    | c :: r => if isAlphaC c then r else c :: r
    | [] => [])

/-- Pattern `Question\s*\d+` (IGNORECASE). -/
def mQuestionNum (s : Str) : Option Str := do
  let s ← eatLit true (S "question") s
  let s := s.dropWhile isWs
  eatDigits1 s

/-- Pattern `\(Dec|June|Nov|May|Apr|Jan|Feb|Mar|Aug|Sep|Oct\s*\d{4}\)`
(IGNORECASE) — as written, an alternation whose branches are `\(Dec`, bare
month names, and `Oct\s*\d{4}\)`. -/
def mMonth (s : Str) : Option Str :=
  (eatLit true (S "(dec") s).orElse fun _ =>
  (eatLit true (S "june") s).orElse fun _ =>
  (eatLit true (S "nov") s).orElse fun _ =>
  (eatLit true (S "may") s).orElse fun _ =>
  (eatLit true (S "apr") s).orElse fun _ =>
  (eatLit true (S "jan") s).orElse fun _ =>
  (eatLit true (S "feb") s).orElse fun _ =>
  (eatLit true (S "mar") s).orElse fun _ =>
  (eatLit true (S "aug") s).orElse fun _ =>
  (eatLit true (S "sep") s).orElse fun _ =>
  (do
    let s ← eatLit true (S "oct") s
    let s := s.dropWhile isWs
    let s ← mYear s
    eatLit true (S ")") s)

/-- Pattern `\[[^\]]+\]`. -/
def mBrack (s : Str) : Option Str := do
  let s ← eatLit false (S "[") s
  let inner := s.takeWhile (fun c => !(c == ']'))
  let rest := s.dropWhile (fun c => !(c == ']'))
  if inner.isEmpty then none else eatLit false (S "]") rest

/-- The seven `REMOVE_PATTERNS` substitutions, applied in source order. -/
def removePats (s : Str) : Str :=
  let s := subDel (toDel mYear) s
  let s := subDel (toDel mMarksParen) s
  let s := subDel (toDel mMarksBare) s
  let s := subDel (toDel mQnum) s
  let s := subDel (toDel mQuestionNum) s
  let s := subDel (toDel mMonth) s
  subDel (toDel mBrack) s

/-- A character kept by `re.sub(r'[^\w\s\.\,\-]', ' ', text)`. -/
def keptChar (c : Char) : Bool :=
  isWordC c || isWs c || c == '.' || c == ',' || c == '-'

/-- `re.sub(r'[^\w\s\.\,\-]', ' ', text)`. -/
def replaceSpecial (s : Str) : Str :=
  s.map (fun c => if keptChar c then c else ' ')

/-- The word filter of `normalize`:
`[w for w in words if w not in self.stopwords and len(w) > 2]`. -/
def keepWord (w : Str) : Bool :=
  !(STOPWORDS.contains w) && decide (w.length > 2)

/-- `TextNormalizer.normalize` (normalizer.py lines 41-77). -/
def normalize (s : Str) : Str :=
  if s.isEmpty then []
  else
    let t := lower s
    let t := removePats t
    let t := replaceSpecial t
    let t := collapseWs t
    let words := splitWs t
    let words := words.filter keepWord
    strip (sjoin words)

/-- `TextNormalizer.create_topic_key` (normalizer.py lines 125-139). -/
def createTopicKey (s : Str) : Str :=
  let n := normalize s
  let key := strip (n.take 50)
  if !key.isEmpty then key else strip (n.take 100)

end TextNormalizer

example : TextNormalizer.normalize (S "12[a]34") = S "1234" := by decide
example : TextNormalizer.normalize (S "1234") = S "" := by decide
example : TextNormalizer.normalize (S "What is the answer?") = S "" := by decide
example : TextNormalizer.normalize (S "Define entropy of a thermodynamic system (3 marks)")
    = S "entropy thermodynamic system" := by decide

/-! ## Shared clustering data model

`Question` mirrors the fields of `apps.questions.models.Question` (plus its
paper's `id`/`year`) that the clustering services read.  `paper` is a
non-nullable foreign key, so it is embedded inline; `year` is a
`CharField(blank=True)` whose empty string is falsy.  Floats are modelled
as exact rationals. -/

structure Paper where
  id : Nat
  year : Str
deriving DecidableEq

structure Question where
  id : Nat
  question_number : Str
  text : Str
  normalized_text : Str
  marks : Option Nat
  part : Str
  embedding : Option (List ℚ)
  paper : Paper
deriving DecidableEq

namespace Py

/-- Truthiness of an optional list (Python: `None` and `[]` are falsy). -/
def optListTruthy (o : Option (List α)) : Bool :=
  match o with
  | none => false
  | some l => !l.isEmpty

/-- `np.dot` on two equal-length vectors. -/
def dotQ (a b : List ℚ) : ℚ := (a.zip b).foldl (fun acc p => acc + p.1 * p.2) 0

/-- Lexicographic (code-point) strict order on Python strings. -/
def strLtB : Str → Str → Bool
  | [], [] => false
  | [], _ :: _ => true
  | _ :: _, [] => false
  | a :: as, b :: bs =>
    if a.toNat < b.toNat then true
    else if b.toNat < a.toNat then false
    else strLtB as bs

def insertSorted (x : Str) : List Str → List Str
  | [] => [x]
  | y :: ys => if strLtB y x then y :: insertSorted x ys else x :: y :: ys

/-- Python `sorted` on a list of strings. -/
def pySortStrs (l : List Str) : List Str := l.foldl (fun acc x => insertSorted x acc) []

/-- Python set-accumulation: append if not already present. -/
def addIfAbsent [DecidableEq α] (l : List α) (x : α) : List α :=
  if x ∈ l then l else l ++ [x]

end Py

/-! ## The rapidfuzz collaborator: `fuzz.token_sort_ratio`

`token_sort_ratio(s1, s2)` sorts the whitespace tokens of each string,
rejoins them with single spaces and returns the normalized InDel
similarity `100 * (1 - dist/(len1+len2))`, i.e. `100 * 2*LCS/(len1+len2)`.
The service divides by 100; `tokenSortScore` is that quotient. -/

namespace RapidFuzz

open Py

/-- One row update of the longest-common-subsequence table: `prevTail` is
the previous row from column `j` on, `cur` the already-computed new value
at column `j`. -/
def lcsRow (x : Char) : Str → List Nat → Nat → List Nat
  | [], _, _ => []
  | _ :: _, [], _ => []
  | y :: ys, pj :: prest, cur =>
    let pj1 := prest.headD 0
    let v := if x == y then pj + 1 else max cur pj1
    v :: lcsRow x ys prest v

/-- Length of the longest common subsequence. -/
def lcs (xs ys : Str) : Nat :=
  let final := xs.foldl (fun row x => 0 :: lcsRow x ys row 0) (List.replicate (ys.length + 1) 0)
  final.getLastD 0

/-- Normalized InDel similarity of two strings, in `[0,1]`. -/
def indelSim (a b : Str) : ℚ :=
  if a.length + b.length = 0 then 1
  else (2 * lcs a b : ℚ) / (a.length + b.length)

/-- `fuzz.token_sort_ratio(a, b) / 100`. -/
def tokenSortScore (a b : Str) : ℚ :=
  indelSim (sjoin (pySortStrs (splitWs a))) (sjoin (pySortStrs (splitWs b)))

end RapidFuzz

/-! ## apps/analytics/models.py — `TopicCluster.update_priority_tier` -/

namespace Models

/-- The `tier_thresholds` dict argument; each key may be absent
(`dict.get` falls back to 4/3/2). -/
structure TierThresholds where
  tier1 : Option Nat
  tier2 : Option Nat
  tier3 : Option Nat
deriving DecidableEq

/-- `TopicCluster.update_priority_tier` (models.py lines 98-121) as a pure
function from `frequency_count` and the optional thresholds dict to the
stored `priority_tier`. -/
def updatePriorityTier (freq : Nat) (t : Option TierThresholds) : Nat :=
  let t1 := match t with | none => 4 | some tt => tt.tier1.getD 4
  let t2 := match t with | none => 3 | some tt => tt.tier2.getD 3
  let t3 := match t with | none => 2 | some tt => tt.tier3.getD 2
  if t1 ≤ freq then 1
  else if t2 ≤ freq then 2
  else if t3 ≤ freq then 3
  else 4

/-- Modelled from the spec: `TopicCluster.calculate_priority_tier` is
called with three threshold arguments in apps/analytics/clustering.py but
is not defined in the available sources (its base class `apps.core.models.
BaseModel` is not in the tree); spec §4.7 gives the rule
`freq ≥ tier1 → 1; ≥ tier2 → 2; ≥ tier3 → 3; else 4`. -/
def calculatePriorityTier (freq t1 t2 t3 : Nat) : Nat :=
  if t1 ≤ freq then 1
  else if t2 ≤ freq then 2
  else if t3 ≤ freq then 3
  else 4

end Models

example : RapidFuzz.lcs (S "abc") (S "cab") = 2 := by decide
example : RapidFuzz.lcs (S "abc") (S "abc") = 3 := by decide
example : RapidFuzz.lcs (S "ba") (S "ab") = 1 := by decide
example : RapidFuzz.tokenSortScore (S "b a") (S "a b") = 1 := by
  have ha : Py.sjoin (Py.pySortStrs (Py.splitWs (S "b a"))) = S "a b" := by decide
  have hb : Py.sjoin (Py.pySortStrs (Py.splitWs (S "a b"))) = S "a b" := by decide
  have h2 : RapidFuzz.lcs (S "a b") (S "a b") = 3 := by decide
  have hl : (S "a b").length = 3 := by decide
  simp only [RapidFuzz.tokenSortScore, ha, hb, RapidFuzz.indelSim, h2, hl]
  norm_num

/-! ## apps/analytics/clustering.py — `TopicClusteringService` -/

namespace SvcClustering

open Py TextNormalizer

/-- Pattern `\(\s*\d+\s*marks?\s*\)` (IGNORECASE). -/
def mMarksParenWS (s : Str) : Option Str := do
  let s ← eatLit true (S "(") s
  let s := s.dropWhile isWs
  let s ← eatDigits1 s
  let s := s.dropWhile isWs
  let s ← eatLit true (S "mark") s
  let s := match s with
    | c :: r => if lowerC c == 's' then r else c :: r
    | [] => []
  let s := s.dropWhile isWs
  eatLit true (S ")") s

def monthLits : List Str :=
  ["dec", "december", "jun", "june", "nov", "november", "may", "april",
   "aug", "august"].map String.data

/-- Pattern `(dec|december|jun|june|nov|november|may|april|aug|august)\s*\d{4}`
(IGNORECASE); alternatives are tried in source order with tail
backtracking. -/
def mMonthYearSvc (s : Str) : Option Str :=
  monthLits.foldr (fun lit acc =>
    match (do
      let r ← eatLit true lit s
      let r := r.dropWhile isWs
      mYear r) with
    | some r => some r
    | none => acc) none

/-- `re.sub` of an anchored (`^...`) pattern with empty replacement:
at most one removal, at position 0. -/
def anchorDel (m : Str → Option Str) (s : Str) : Str := (m s).getD s

/-- `[:\.\)]` character class. -/
def isColonDotParen (c : Char) : Bool := c == ':' || c == '.' || c == ')'

/-- Pattern `^q\d+[a-z]?\s*[:\.\)]*\s*` (no flags: case-sensitive). -/
def mQnumAnch (s : Str) : Option Str := do
  let s ← eatLit false (S "q") s
  let s ← eatDigits1 s
  let s := match s with
    | c :: r => if isAsciiLower c then r else c :: r
    | [] => []
  let s := s.dropWhile isWs
  let s := s.dropWhile isColonDotParen
  some (s.dropWhile isWs)

/-- Pattern `^question\s*\d+\s*[:\.\)]*\s*` (IGNORECASE). -/
def mQuestionAnch (s : Str) : Option Str := do
  let s ← eatLit true (S "question") s
  let s := s.dropWhile isWs
  let s ← eatDigits1 s
  let s := s.dropWhile isWs
  let s := s.dropWhile isColonDotParen
  some (s.dropWhile isWs)

/-- Pattern `^part\s*[ab]\s*[:\.\)]*\s*` (IGNORECASE). -/
def mPartAnch (s : Str) : Option Str := do
  let s ← eatLit true (S "part") s
  let s := s.dropWhile isWs
  match s with
  | c :: r =>
    if lowerC c == 'a' || lowerC c == 'b' then
      let r := r.dropWhile isWs
      let r := r.dropWhile isColonDotParen
      some (r.dropWhile isWs)
    else none
  | [] => none

/-- The `trivial` word list of `_normalize_text` (clustering.py line 183). -/
def trivialWords : List Str :=
  ["the", "a", "an", "and", "or", "but", "with", "for", "to", "of", "in",
   "on", "at"].map String.data

/-- `[w for w in words if len(w) > 3 or w not in trivial]`. -/
def keepWordSvc (w : Str) : Bool :=
  decide (w.length > 3) || !(trivialWords.contains w)

/-- `TopicClusteringService._normalize_text` (clustering.py lines 164-191). -/
def normalizeText (s : Str) : Str :=
  let t := lower s
  let t := subDel (toDel mMarksParenWS) t
  let t := subDel (toDel mYear) t
  let t := subDel (toDel mMonthYearSvc) t
  let t := anchorDel mQnumAnch t
  let t := anchorDel mQuestionAnch t
  let t := anchorDel mPartAnch t
  let words := (splitWs t).filter keepWordSvc
  strip (collapseWs (sjoin words))

/-- `TopicClusteringService._calculate_text_similarity`
(clustering.py lines 193-209): Jaccard similarity over token sets. -/
def jaccardSvc (t1 t2 : Str) : ℚ :=
  let tok1 := (splitWs t1).dedup
  let tok2 := (splitWs t2).dedup
  if tok1.isEmpty || tok2.isEmpty then 0
  else
    let inter := tok1.filter (fun w => decide (w ∈ tok2))
    let union := (tok1 ++ tok2).dedup
    if union.isEmpty then 0 else (inter.length : ℚ) / (union.length : ℚ)

/-- `TopicClusteringService._calculate_cosine_similarity`
(clustering.py lines 211-228); `np.linalg.norm` is an exact real square
root here, and the `except` branch (e.g. on a length mismatch in
`np.dot`) returns 0.0. -/
noncomputable def cosineSimSvc (e1 e2 : List ℚ) : ℝ :=
  if e1.length ≠ e2.length then 0
  else if Real.sqrt ((dotQ e1 e1 : ℚ) : ℝ) = 0 ∨ Real.sqrt ((dotQ e2 e2 : ℚ) : ℝ) = 0 then 0
  else ((dotQ e1 e2 : ℚ) : ℝ)
    / (Real.sqrt ((dotQ e1 e1 : ℚ) : ℝ) * Real.sqrt ((dotQ e2 e2 : ℚ) : ℝ))

/-- `TopicClusteringService._are_similar` (clustering.py lines 128-162).
`fuzzAvail` models the `try: from rapidfuzz import fuzz / except
ImportError` guard; `θ` is `self.similarity_threshold`. -/
noncomputable def areSimilar (fuzzAvail : Bool) (θ : ℚ) (q1 q2 : Question) : Bool :=
  let n1 := normalizeText q1.text
  let n2 := normalizeText q2.text
  if n1.length < 30 ∨ n2.length < 30 then
    containsSub n1 n2 || containsSub n2 n1
  else if fuzzAvail && decide (θ ≤ RapidFuzz.tokenSortScore n1 n2) then true
  else if decide (θ ≤ jaccardSvc n1 n2) then true
  else
    match q1.embedding, q2.embedding with
    | some e1, some e2 =>
      if !e1.isEmpty && !e2.isEmpty then
        if (θ : ℝ) ≤ cosineSimSvc e1 e2 then true else false
      else false
    | _, _ => false

def verbLeads : List Str :=
  ["explain", "define", "describe", "discuss", "what", "how", "why", "list",
   "enumerate", "state", "elaborate", "illustrate", "classify", "compare",
   "differentiate", "write", "give", "mention", "outline", "summarize",
   "analyze", "evaluate", "examine"].map String.data

/-- Consume `\s+` (at least one whitespace character). -/
def eatWs1 (s : Str) : Option Str :=
  let r := s.dropWhile Py.isWs
  if r.length = s.length then none else some r

/-- Anchored pattern
`^(explain|define|...|examine)\s+(about\s+)?(the\s+)?` (IGNORECASE) of
`_extract_topic_name` (clustering.py lines 238-243). -/
def mVerbLead (s : Str) : Option Str :=
  verbLeads.foldr (fun v acc =>
    match (do
      let r ← eatLit true v s
      let r ← eatWs1 r
      let r := match (do
          let t ← eatLit true (S "about") r
          eatWs1 t) with
        | some t => t
        | none => r
      let r := match (do
          let t ← eatLit true (S "the") r
          eatWs1 t) with
        | some t => t
        | none => r
      some r) with
    | some r => some r
    | none => acc) none

/-- Trailing-instruction pattern
`\s+(with|using|by)\s+(diagram|example|illustration|detail|reference|help of).*$`
(clustering.py lines 246-249); the `.*$` tail swallows the rest, so the
matcher only needs the prefix to succeed (question texts are
newline-free after extraction's whitespace joining). -/
def mTrailInstr (s : Str) : Option Unit := do
  let r ← eatWs1 s
  let r ← (["with", "using", "by"].map String.data).foldr
    (fun v acc => match eatLit true v r with
      | some t => some t
      | none => acc) none
  let r ← eatWs1 r
  let _ ← (["diagram", "example", "illustration", "detail", "reference",
            "help of"].map String.data).foldr
    (fun v acc => match eatLit true v r with
      | some t => some t
      | none => acc) none
  some ()

/-- `TopicClusteringService._extract_topic_name`
(clustering.py lines 230-273). -/
def extractTopicName (qtext : Str) : Str :=
  let t := anchorDel mVerbLead qtext
  let t := match searchPos mTrailInstr t with
    | some (p, _) => t.take p
    | none => t
  let t :=
    if t.contains '?' then t.takeWhile (fun c => !(c == '?'))
    else if t.contains '.' ∧ (t.takeWhile (fun c => !(c == '.'))).length < 80 then
      t.takeWhile (fun c => !(c == '.'))
    else t
  let words := splitWs t
  let t := if words.length > 12 then sjoin (words.take 10) else t
  let t := strip t
  let t := match t with
    | c :: r => if !isAsciiUpper c then upperC c :: r else c :: r
    | [] => []
  if t.length > 80 then t.take 77 ++ S "..." else t

/-- Years collected by the cluster-statistics loops:
`if q.paper.year: years.add(q.paper.year)` (set semantics, blank year is
falsy). -/
def validYears (qs : List Question) : List Str :=
  qs.foldl (fun ys q => if q.paper.year.isEmpty then ys else addIfAbsent ys q.paper.year) []

/-- Marks total of the cluster-statistics loops:
`if q.marks: total_marks += q.marks` (zero marks are falsy). -/
def totalMarksOf (qs : List Question) : Nat :=
  qs.foldl (fun t q => match q.marks with
    | some m => if m ≠ 0 then t + m else t
    | none => t) 0

/-- The stored `TopicCluster` row as created by
`TopicClusteringService._create_topic_cluster` (clustering.py lines
275-337), together with the member questions linked to it. -/
structure ClusterS where
  module : Option Nat
  topic_name : Str
  normalized_key : Str
  representative_text : Str
  frequency_count : Nat
  years_appeared : List Str
  total_marks : Nat
  part_a_count : Nat
  part_b_count : Nat
  priority_tier : Nat
  members : List Question
deriving DecidableEq

/-- `TopicClusteringService._create_topic_cluster` (clustering.py lines
275-337).  `t1 t2 t3` are the service's tier thresholds. -/
def createTopicClusterSvc (t1 t2 t3 : Nat) (module : Option Nat)
    (rep : Question) (qs : List Question) (nkey : Str) : ClusterS :=
  let years := validYears qs
  let freq := years.length
  { module := module
    topic_name := extractTopicName rep.text
    normalized_key := nkey
    representative_text := rep.text
    frequency_count := freq
    years_appeared := pySortStrs years
    total_marks := totalMarksOf qs
    part_a_count := (qs.filter (fun q => !q.part.isEmpty && (q.part.map upperC == S "A"))).length
    part_b_count := (qs.filter (fun q => !q.part.isEmpty && !(q.part.map upperC == S "A")
                      && (q.part.map upperC == S "B"))).length
    priority_tier := Models.calculatePriorityTier freq t1 t2 t3
    members := qs }

/-- Inner scan of `_cluster_module_questions` (clustering.py lines
110-117): every not-yet-processed question similar to the seed joins the
cluster. -/
noncomputable def svcInner (fa : Bool) (θ : ℚ) (seed : Question)
    (all : List Question) (ms : List Question) (procd : List Nat) :
    List Question × List Nat :=
  all.foldl (fun acc other =>
    if other.id ∈ acc.2 then acc
    else if areSimilar fa θ seed other then (acc.1 ++ [other], acc.2 ++ [other.id])
    else acc) (ms, procd)

/-- Outer scan of `_cluster_module_questions` (clustering.py lines
94-119): seeds in input order, skipping processed questions. -/
noncomputable def svcGatherGo (fa : Bool) (θ : ℚ) (all : List Question) :
    List Question → List Nat → List (Question × List Question)
  | [], _ => []
  | q :: rest, procd =>
    if q.id ∈ procd then svcGatherGo fa θ all rest procd
    else
      let mp := svcInner fa θ q all [q] (procd ++ [q.id])
      (q, mp.1) :: svcGatherGo fa θ all rest mp.2

/-- `TopicClusteringService._cluster_module_questions` (clustering.py
lines 84-126): greedy gathering followed by cluster creation. -/
noncomputable def clusterModuleQuestionsSvc (fa : Bool) (θ : ℚ) (t1 t2 t3 : Nat)
    (module : Option Nat) (qs : List Question) : List ClusterS :=
  (svcGatherGo fa θ qs qs []).map (fun rc =>
    createTopicClusterSvc t1 t2 t3 module rc.1 rc.2 (normalizeText rc.1.text))

/-- The similarity decision chain exactly as the specification words it
(spec §4.4 / claim C2): (1) containment for short normalized texts,
(2) fuzzy ratio, (3) Jaccard, (4) cosine only when both questions carry
an embedding vector; each stage only when the prior ones were not
decisive. -/
noncomputable def specChainDecision (θ : ℚ) (n1 n2 : Str)
    (e1 e2 : Option (List ℚ)) : Bool :=
  if n1.length < 30 ∨ n2.length < 30 then
    containsSub n1 n2 || containsSub n2 n1
  else if decide (θ ≤ RapidFuzz.tokenSortScore n1 n2) then true
  else if decide (θ ≤ jaccardSvc n1 n2) then true
  else
    match e1, e2 with
    | some v1, some v2 =>
      if !v1.isEmpty && !v2.isEmpty then
        if (θ : ℝ) ≤ cosineSimSvc v1 v2 then true else false
      else false
    | _, _ => false

end SvcClustering

/-! ## services/clustering/topic_clusterer.py — `TopicClusterer` -/

namespace Clusterer

open Py TextNormalizer

/-- `TopicClusterer._text_similarity` (topic_clusterer.py lines 175-198):
Jaccard over word sets of the normalized texts, with empty-input guards. -/
def textSimilarity (t1 t2 : Str) : ℚ :=
  if t1.isEmpty || t2.isEmpty then 0
  else
    let w1 := (splitWs t1).dedup
    let w2 := (splitWs t2).dedup
    if w1.isEmpty || w2.isEmpty then 0
    else
      let inter := w1.filter (fun w => decide (w ∈ w2))
      let union := (w1 ++ w2).dedup
      if union.isEmpty then 0 else (inter.length : ℚ) / (union.length : ℚ)

/-- `TopicClusterer._calculate_similarity` (topic_clusterer.py lines
143-173): embedding cosine (clamped to `[0,1]`) when both questions carry
a truthy embedding and the norms are positive; in every other case
(including the `except` path on mismatched vector lengths) the
normalized-text Jaccard fallback. -/
noncomputable def calcSimilarity (q1 q2 : Question) : ℝ :=
  match q1.embedding, q2.embedding with
  | some e1, some e2 =>
    if e1.isEmpty || e2.isEmpty then
      ((textSimilarity q1.normalized_text q2.normalized_text : ℚ) : ℝ)
    else if e1.length ≠ e2.length then
      ((textSimilarity q1.normalized_text q2.normalized_text : ℚ) : ℝ)
    else if 0 < Real.sqrt ((dotQ e1 e1 : ℚ) : ℝ) ∧ 0 < Real.sqrt ((dotQ e2 e2 : ℚ) : ℝ) then
      max 0 (min 1 (((dotQ e1 e2 : ℚ) : ℝ)
        / (Real.sqrt ((dotQ e1 e1 : ℚ) : ℝ) * Real.sqrt ((dotQ e2 e2 : ℚ) : ℝ))))
    else ((textSimilarity q1.normalized_text q2.normalized_text : ℚ) : ℝ)
  | _, _ => ((textSimilarity q1.normalized_text q2.normalized_text : ℚ) : ℝ)

def mWh1 : List Str :=
  ["what", "which", "who", "when", "where", "why", "how"].map String.data

def mAux1 : List Str :=
  ["is", "are", "was", "were", "do", "does", "did"].map String.data

def eatWs1 (s : Str) : Option Str :=
  let r := s.dropWhile isWs
  if r.length = s.length then none else some r

def firstLit (lits : List Str) (s : Str) : Option Str :=
  lits.foldr (fun v acc =>
    match matchLit true v s with
    | some t => some t
    | none => acc) none

/-- Prefix `^(What|Which|Who|When|Where|Why|How)\s+(is|are|was|were|do|does|did)\s+`
(IGNORECASE) of `_generate_topic_name`. -/
def mNamePre1 (s : Str) : Option Str := do
  let r ← firstLit mWh1 s
  let r ← eatWs1 r
  let r ← firstLit mAux1 r
  eatWs1 r

/-- Prefix `^(Explain|Describe|Define|Discuss|Illustrate|List|Mention|State)\s+`
(IGNORECASE). -/
def mNamePre2 (s : Str) : Option Str := do
  let r ← firstLit
    (["explain", "describe", "define", "discuss", "illustrate", "list",
      "mention", "state"].map String.data) s
  eatWs1 r

/-- Prefix `^\d+[a-z]?\.\s*` (IGNORECASE) — with the one-letter
backtracking the optional group needs. -/
def mNamePre3 (s : Str) : Option Str := do
  let s1 ← TextNormalizer.eatDigits1 s
  match s1 with
  | c :: r =>
    if isAlphaC c then
      match matchLit false (S ".") r with
      | some r2 => some (r2.dropWhile isWs)
      | none => (matchLit false (S ".") (c :: r)).map (·.dropWhile isWs)
    else (matchLit false (S ".") (c :: r)).map (·.dropWhile isWs)
  | [] => none

/-- Prefix `^\d+[a-z]?\)\s*` (IGNORECASE). -/
def mNamePre4 (s : Str) : Option Str := do
  let s1 ← TextNormalizer.eatDigits1 s
  match s1 with
  | c :: r =>
    if isAlphaC c then
      match matchLit false (S ")") r with
      | some r2 => some (r2.dropWhile isWs)
      | none => (matchLit false (S ")") (c :: r)).map (·.dropWhile isWs)
    else (matchLit false (S ")") (c :: r)).map (·.dropWhile isWs)
  | [] => none

/-- Python `s.rsplit(' ', 1)[0]`. -/
def beforeLastSpace (s : Str) : Str :=
  if s.contains ' ' then ((s.reverse.dropWhile (fun c => !(c == ' '))).drop 1).reverse
  else s

/-- `TopicClusterer._generate_topic_name` (topic_clusterer.py lines
283-318), with the default `max_length = 100`. -/
def generateTopicName (qtext : Str) : Str :=
  let t := SvcClustering.anchorDel mNamePre1 qtext
  let t := SvcClustering.anchorDel mNamePre2 t
  let t := SvcClustering.anchorDel mNamePre3 t
  let t := SvcClustering.anchorDel mNamePre4 t
  let topic := strip (t.takeWhile (fun c => !(c == '.')))
  let topic :=
    if topic.length > 100 then beforeLastSpace (topic.take 100) ++ S "..."
    else topic
  if topic.isEmpty then qtext.take 100 else topic

/-- Element-wise sum of two equal-length vectors. -/
def addVec (a b : List ℚ) : List ℚ := List.zipWith (· + ·) a b

/-- `np.mean(embeddings, axis=0)` of `_create_topic_cluster`; ragged
input makes numpy raise, which the `except` turns into no centroid. -/
def centroidOf (embs : List (List ℚ)) : Option (List ℚ) :=
  match embs with
  | [] => none
  | e0 :: rest =>
    if rest.all (fun e => decide (e.length = e0.length)) then
      some ((rest.foldl addVec e0).map (fun x => x / (embs.length : ℚ)))
    else none

/-- The stored `TopicCluster` row as created by
`TopicClusterer._create_topic_cluster` (topic_clusterer.py lines
200-281), together with the member questions linked to it. -/
structure ClusterTC where
  topic_name : Str
  normalized_key : Str
  frequency_count : Nat
  years_appeared : List Str
  papers_appeared : List Nat
  total_marks : Nat
  avg_marks : ℚ
  representative_question : Str
  embedding_centroid : Option (List ℚ)
  priority_tier : Nat
  members : List Question
deriving DecidableEq

/-- `TopicClusterer._create_topic_cluster` (topic_clusterer.py lines
200-281).  `t1 t2 t3` model `subject.get_tier_thresholds()` — modelled
from the spec, since that accessor is not defined in the available
sources (spec §6: per-subject `tier_1/2/3` thresholds, defaults 4/3/2). -/
def createTopicClusterTC (t1 t2 t3 : Nat) (qs : List Question) : Option ClusterTC :=
  match qs with
  | [] => none
  | q0 :: _ =>
    let rep := qs.foldl (fun best q =>
      if best.text.length < q.text.length then q else best) q0
    let years := SvcClustering.validYears qs
    let freq := qs.length
    let total := SvcClustering.totalMarksOf qs
    let embs := qs.filterMap (fun q => match q.embedding with
      | some e => if e.isEmpty then none else some e
      | none => none)
    some
      { topic_name := generateTopicName rep.text
        normalized_key := createTopicKey rep.text
        frequency_count := freq
        years_appeared := pySortStrs years
        papers_appeared := qs.foldl (fun ps q => addIfAbsent ps q.paper.id) []
        total_marks := total
        avg_marks := if freq > 0 then (total : ℚ) / (freq : ℚ) else 0
        representative_question := rep.text.take 500
        embedding_centroid := centroidOf embs
        priority_tier := Models.updatePriorityTier freq (some ⟨some t1, some t2, some t3⟩)
        members := qs }

/-- Normalization pre-pass of `_cluster_module_questions`
(topic_clusterer.py lines 101-105): fill `normalized_text` when unset. -/
def fillNorm (q : Question) : Question :=
  if q.normalized_text.isEmpty then
    { q with normalized_text := TextNormalizer.normalize q.text }
  else q

/-- Greedy gathering of `_cluster_module_questions` (topic_clusterer.py
lines 107-141): the seed is compared against the questions after it. -/
noncomputable def tcGatherGo (θ : ℚ) : List Question → List Nat → List (List Question)
  | [], _ => []
  | q :: rest, assigned =>
    if q.id ∈ assigned then tcGatherGo θ rest assigned
    else
      let mp := rest.foldl (fun (acc : List Question × List Nat) q2 =>
        if q2.id ∈ acc.2 then acc
        else if (θ : ℝ) ≤ calcSimilarity q q2 then (acc.1 ++ [q2], acc.2 ++ [q2.id])
        else acc) ([q], assigned ++ [q.id])
      mp.1 :: tcGatherGo θ rest mp.2

/-- `TopicClusterer._cluster_module_questions` (topic_clusterer.py lines
81-141). -/
noncomputable def clusterModuleQuestionsTC (θ : ℚ) (t1 t2 t3 : Nat)
    (qs : List Question) : List ClusterTC :=
  let qs := qs.map fillNorm
  (tcGatherGo θ qs []).filterMap (createTopicClusterTC t1 t2 t3)

end Clusterer

/-! ## apps/analysis/services/extractor.py — `QuestionExtractor` -/

/-- A question dict as produced by `QuestionExtractor.extract_questions`. -/
structure ExQ where
  question_number : Str
  text : Str
  marks : Nat
  part : Str
  module_hint : Option Nat
deriving DecidableEq

namespace Extractor

open Py

/-- `[\.\)]` character class. -/
def isDotParen (c : Char) : Bool := c == '.' || c == ')'

/-- Greedy `\d{1,2}`: try two digits, and on tail failure backtrack to
one. -/
def try12 (tail : Str → Str → Option α) (s : Str) : Option α :=
  match s with
  | a :: b :: r =>
    if isDigitC a && isDigitC b then
      match tail [a, b] r with
      | some v => some v
      | none => if isDigitC a then tail [a] (b :: r) else none
    else if isDigitC a then tail [a] (b :: r) else none
  | [a] => if isDigitC a then tail [a] [] else none
  | [] => none

/-- Consume `\s+`. -/
def eatWs1 (s : Str) : Option Str :=
  let r := s.dropWhile isWs
  if r.length = s.length then none else some r

/-- `\n`-splitting of Python `text.split('\n')` (keeps empty fields). -/
def splitNl : Str → List Str
  | [] => [[]]
  | c :: r =>
    if c == '\n' then [] :: splitNl r
    else match splitNl r with
      | l :: ls => (c :: l) :: ls
      | [] => [[c]]

/-- `'\n'.join(lines)`. -/
def joinNl (ls : List Str) : Str := List.intercalate ['\n'] ls

/-- The eleven `skip_patterns` of `_clean_text` (extractor.py lines
105-117), each matched at the start of the (stripped) line, IGNORECASE. -/
def skipLine (l : Str) : Bool :=
  -- ^\d{10,}$
  (decide (10 ≤ l.length) && l.all isDigitC) ||
  -- ^Page\s*\d+
  (do
    let r ← matchLit true (S "page") l
    let r := r.dropWhile isWs
    TextNormalizer.eatDigits1 r).isSome ||
  -- ^Name:
  (matchLit true (S "name:") l).isSome ||
  -- ^\$#\d+
  (do
    let r ← matchLit true (S "$#") l
    TextNormalizer.eatDigits1 r).isSome ||
  -- ^APJ ABDUL KALAM
  (matchLit true (S "apj abdul kalam") l).isSome ||
  -- ^B\.?Tech\s+Degree
  (do
    let r ← matchLit true (S "b") l
    let r := (matchLit false (S ".") r).getD r
    let r ← matchLit true (S "tech") r
    let r ← eatWs1 r
    matchLit true (S "degree") r).isSome ||
  -- ^Course\s*(Code|Name):
  (do
    let r ← matchLit true (S "course") l
    let r := r.dropWhile isWs
    let r ← match matchLit true (S "code") r with
      | some t => some t
      | none => matchLit true (S "name") r
    matchLit false (S ":") r).isSome ||
  -- ^Max\.?\s*Marks
  (do
    let r ← matchLit true (S "max") l
    let r := (matchLit false (S ".") r).getD r
    let r := r.dropWhile isWs
    matchLit true (S "marks") r).isSome ||
  -- ^Duration:
  (matchLit true (S "duration:") l).isSome ||
  -- ^\d+\s+of\s+\d+
  (do
    let r ← TextNormalizer.eatDigits1 l
    let r ← eatWs1 r
    let r ← matchLit true (S "of") r
    let r ← eatWs1 r
    TextNormalizer.eatDigits1 r).isSome ||
  -- ^[.,;:\-\s]+$
  (!l.isEmpty && l.all (fun c =>
    c == '.' || c == ',' || c == ';' || c == ':' || c == '-' || isWs c))

/-- `QuestionExtractor._clean_text` (extractor.py lines 94-128). -/
def cleanText (s : Str) : Str :=
  joinNl ((((splitNl s).map strip).filter (fun l => !l.isEmpty)).filter
    (fun l => !skipLine l))

/-- Match `PART\s*A` (IGNORECASE), returning the rest. -/
def mPartALead (s : Str) : Option Str := do
  let r ← matchLit true (S "part") s
  let r := r.dropWhile isWs
  matchLit true (S "a") r

/-- Match the lazy-group terminator `(?:PART\s*B|Module\s*[-–:]?\s*[1IVX])`
(IGNORECASE) at this position. -/
def mSectionTail (s : Str) : Bool :=
  (do
    let r ← matchLit true (S "part") s
    let r := r.dropWhile isWs
    matchLit true (S "b") r).isSome ||
  (do
    let r ← matchLit true (S "module") s
    let r := r.dropWhile isWs
    let r := match r with
      | c :: t => if c == '-' || c == '–' || c == ':' then t else c :: t
      | [] => []
    let r := r.dropWhile isWs
    match r with
    | c :: _ =>
      if c == '1' || lowerC c == 'i' || lowerC c == 'v' || lowerC c == 'x' then
        some ()
      else none
    | [] => none).isSome

/-- First index at which `p` holds of the suffix. -/
def findFrom (p : Str → Bool) : Str → Option Nat
  | [] => if p [] then some 0 else none
  | c :: r => if p (c :: r) then some 0 else (findFrom p r).map (· + 1)

/-- The `re.search(r'PART\s*A(.*?)(?:PART\s*B|Module...)', text, I|DOTALL)`
of `_extract_part_a`: leftmost `PART A` whose lazy group reaches a
terminator; returns `group(1)`. -/
def partASection : Str → Option Str
  | [] => none
  | c :: r =>
    match mPartALead (c :: r) with
    | some rest =>
      match findFrom mSectionTail rest with
      | some j => some (rest.take j)
      | none => partASection r
    | none => partASection r

/-- Fuel-indexed worker for boundary-aware replacement substitution: the
matcher sees the previous original character (for `\b`) and the current
suffix, and yields the extra match length `k` (span `k + 1`) plus the
replacement. -/
def subRepBGo (m : Option Char → Str → Option (Nat × Str)) :
    Nat → Option Char → Str → Str
  | _, _, [] => []
  | 0, _, _ :: _ => []
  | f + 1, prev, c :: rest =>
    match m prev (c :: rest) with
    | some (k, rep) => rep ++ subRepBGo m f (some ((c :: rest).getD k c)) (rest.drop k)
    | none => c :: subRepBGo m f (some c) rest

def subRepB (m : Option Char → Str → Option (Nat × Str)) (s : Str) : Str :=
  subRepBGo m s.length none s

/-- `\b` before the current position: start of string or a non-word
previous character. -/
def boundaryPrev (prev : Option Char) : Bool :=
  match prev with
  | none => true
  | some c => !isWordC c

/-- First literal of a list matching at this position (alternation in
source order), returning the literal and the rest. -/
def firstLitP (ci : Bool) (lits : List Str) (s : Str) : Option (Str × Str) :=
  lits.foldr (fun v acc =>
    match matchLit ci v s with
    | some t => some (v, t)
    | none => acc) none

/-- OCR fix `re.sub(r'\bI\s+(What|How|Explain|Define|List)', r'1 \1', ...)`
(case-sensitive) of `_extract_part_a`. -/
def mIFix (prev : Option Char) (s : Str) : Option (Nat × Str) :=
  if boundaryPrev prev then
    match s with
    | 'I' :: r => do
      let r2 ← eatWs1 r
      let (lit, rest) ← firstLitP false
        (["What", "How", "Explain", "Define", "List"].map String.data) r2
      some (s.length - rest.length - 1, S "1 " ++ lit)
    | _ => none
  else none

/-- OCR fix `re.sub(r'\bl0\b', '10', ...)` of `_extract_part_a`. -/
def mL0Fix (prev : Option Char) (s : Str) : Option (Nat × Str) :=
  if boundaryPrev prev then
    match s with
    | 'l' :: '0' :: rest =>
      match rest with
      | [] => some (1, S "10")
      | c :: _ => if !isWordC c then some (1, S "10") else none
    | _ => none
  else none

/-- Instruction cleanup `re.sub(r'\(Answer.*?\)', '', ..., I)`; the lazy
dot does not cross newlines. -/
def mAnswerParen (s : Str) : Option Str := do
  let r ← matchLit true (S "(answer") s
  let inner := r.takeWhile (fun c => !(c == ')') && !(c == '\n'))
  matchLit false (S ")") (r.drop inner.length)

/-- Instruction cleanup `re.sub(r'each\s+question\s+carries.*', '', ..., I)`. -/
def mEachCarries (s : Str) : Option Str := do
  let r ← matchLit true (S "each") s
  let r ← eatWs1 r
  let r ← matchLit true (S "question") r
  let r ← eatWs1 r
  let r ← matchLit true (S "carries") r
  some (r.dropWhile (fun c => !(c == '\n')))

/-- Question-start pattern `(\d{1,2})[\.\)]*\s+([A-Za-z])` of
`_extract_part_a`; returns the number capture and the rest after the
matched letter. -/
def mQStart (s : Str) : Option (Str × Str) :=
  try12 (fun ds r =>
    let p := r.dropWhile isDotParen
    let w := p.dropWhile isWs
    if w.length = p.length then none
    else match w with
      | c :: t => if isAlphaC c then some (ds, t) else none
      | [] => none) s

/-- `list(re.finditer(...))` for the question-start pattern: match
positions and number captures, scanning resuming after each match. -/
def qStartsGo : Nat → Nat → Str → List (Nat × Str)
  | _, _, [] => []
  | 0, _, _ => []
  | f + 1, pos, c :: r =>
    match mQStart (c :: r) with
    | some (ds, rest) =>
      (pos, ds) :: qStartsGo f (pos + ((c :: r).length - rest.length)) rest
    | none => qStartsGo f (pos + 1) r

def qStarts (s : Str) : List (Nat × Str) := qStartsGo s.length 0 s

/-- Pair each match with the start of the following match (span end). -/
def withNext : List (Nat × Str) → List ((Nat × Str) × Option Nat)
  | [] => []
  | x :: rest => (x, rest.head?.map (·.1)) :: withNext rest

/-- Leading-number removal `re.sub(r'^\d{1,2}[\.\)]*\s+', '', q_text)`. -/
def mStripNumA (s : Str) : Option Str :=
  try12 (fun _ r =>
    let p := r.dropWhile isDotParen
    let w := p.dropWhile isWs
    if w.length = p.length then none else some w) s

/-- Trailing-marks pattern `\(?\s*(\d{1,2})\s*marks?\)?\s*$` (IGNORECASE):
matches only when it reaches the end of the string; returns the digit
capture. -/
def mMarksEnd (s : Str) : Option Str :=
  let s1 := (matchLit false (S "(") s).getD s
  let s2 := s1.dropWhile isWs
  try12 (fun ds r => do
    let r := r.dropWhile isWs
    let r ← matchLit true (S "mark") r
    let r := match r with
      | c :: t => if lowerC c == 's' then t else c :: t
      | [] => []
    let r := (matchLit false (S ")") r).getD r
    let r := r.dropWhile isWs
    if r.isEmpty then some ds else none) s2

/-- Trailing bare-number pattern `\s+\(?\d{1,2}\)?\s*$` of
`_extract_part_a`. -/
def mTrailNumParen (s : Str) : Option Unit := do
  let r ← eatWs1 s
  let r := (matchLit false (S "(") r).getD r
  try12 (fun _ r2 =>
    let r2 := (matchLit false (S ")") r2).getD r2
    let r2 := r2.dropWhile isWs
    if r2.isEmpty then some () else none) r

def garbageWords : List Str :=
  ["causes", "depletion", "hazards", "assessments", "disasters",
   "management", "reduction", "examples", "country"].map String.data

/-- Trailing OCR-garbage pattern
`\s+(causes|...|country)\s*\.?\s*$` (IGNORECASE). -/
def mOcrGarbage (s : Str) : Option Unit := do
  let r ← eatWs1 s
  let (_, r) ← firstLitP true garbageWords r
  let r := r.dropWhile isWs
  let r := (matchLit false (S ".") r).getD r
  let r := r.dropWhile isWs
  if r.isEmpty then some () else none

def headIsAlpha : Str → Bool
  | c :: _ => isAlphaC c
  | [] => false

/-- Per-span field extraction of `_extract_part_a` (extractor.py lines
167-218): number parse and ≤10 filter, span slicing, leading-number
strip, trailing-marks extraction (unCapped), trailing-number and
OCR-garbage removal, and the length/letter acceptance gate. -/
def processPartASpan (paText : Str) (item : (Nat × Str) × Option Nat) : Option ExQ :=
  let start := item.1.1
  let ds := item.1.2
  match pyInt ds with
  | .error _ => none
  | .ok n =>
    if n > 10 then none
    else
      let stop := item.2.getD paText.length
      let qt := strip ((paText.drop start).take (stop - start))
      let qt := (mStripNumA qt).getD qt
      let mq := match searchPos mMarksEnd qt with
        | some (p, ds2) =>
          match pyInt ds2 with
          | .ok m => (m, strip (qt.take p))
          | .error _ => (3, qt)
        | none => (3, qt)
      let qt := match searchPos mTrailNumParen mq.2 with
        | some (p, _) => mq.2.take p
        | none => mq.2
      let qt := match searchPos mOcrGarbage qt with
        | some (p, _) => qt.take p
        | none => qt
      let qt := strip qt
      if 10 ≤ qt.length ∧ headIsAlpha qt then
        some { question_number := ds, text := qt, marks := mq.1,
               part := S "A", module_hint := none }
      else none

/-- `QuestionExtractor._extract_part_a` (extractor.py lines 130-220). -/
def extractPartA (text : Str) : List ExQ :=
  match partASection text with
  | none => []
  | some sec =>
    let sec := subDel (TextNormalizer.toDel mAnswerParen) sec
    let sec := subDel (TextNormalizer.toDel mEachCarries) sec
    let sec := subRepB mIFix sec
    let sec := subRepB mL0Fix sec
    let sec := sjoin (splitWs sec)
    (withNext (qStarts sec)).filterMap (processPartASpan sec)

/-- Module-marker pattern `Module\s*[-–:]?\s*(\d+|[IVX]+)` (IGNORECASE);
returns the capture and the rest. -/
def mModuleMark (s : Str) : Option (Str × Str) := do
  let r ← matchLit true (S "module") s
  let r := r.dropWhile isWs
  let r := match r with
    | c :: t => if c == '-' || c == '–' || c == ':' then t else c :: t
    | [] => []
  let r := r.dropWhile isWs
  let ds := r.takeWhile isDigitC
  if !ds.isEmpty then some (ds, r.drop ds.length)
  else
    let rs := r.takeWhile (fun c => lowerC c == 'i' || lowerC c == 'v' || lowerC c == 'x')
    if !rs.isEmpty then some (rs, r.drop rs.length) else none

/-- `re.split(module_pattern, text, flags=I)` with its one capture group:
the text before the first marker, then (capture, following-segment)
pairs. -/
def splitModAux : Nat → Str → (Str × List (Str × Str))
  | _, [] => ([], [])
  | 0, s => (s, [])
  | f + 1, c :: r =>
    match mModuleMark (c :: r) with
    | some (cap, rest) =>
      let sp := splitModAux f rest
      ([], (cap, sp.1) :: sp.2)
    | none =>
      let sp := splitModAux f r
      (c :: sp.1, sp.2)

def splitModules (s : Str) : Str × List (Str × Str) := splitModAux s.length s

/-- The `roman_map` lookup on `mod_str.upper()`. -/
def romanVal (s : Str) : Option Nat :=
  let u := s.map upperC
  if u = S "I" then some 1
  else if u = S "II" then some 2
  else if u = S "III" then some 3
  else if u = S "IV" then some 4
  else if u = S "V" then some 5
  else if u = S "VI" then some 6
  else none

/-- `re.search(r'PART\s*[A-Z]', ..., I)` position test. -/
def mPartMark (s : Str) : Bool :=
  (do
    let r ← matchLit true (S "part") s
    let r := r.dropWhile isWs
    match r with
    | c :: _ => if isAlphaC c then some () else none
    | [] => none).isSome

/-- OCR fix `re.sub(r'\bl(\d)', r'1\1', ...)` of `_extract_part_b`. -/
def mLDigitFix (prev : Option Char) (s : Str) : Option (Nat × Str) :=
  if boundaryPrev prev then
    match s with
    | 'l' :: d :: _ => if isDigitC d then some (1, ['1', d]) else none
    | _ => none
  else none

/-- OCR fix `re.sub(r'\bI\s*E\b', '18', ...)` of `_extract_part_b`. -/
def mIEFix (prev : Option Char) (s : Str) : Option (Nat × Str) :=
  if boundaryPrev prev then
    match s with
    | 'I' :: r =>
      match r.dropWhile isWs with
      | 'E' :: rest =>
        let ok := match rest with
          | [] => true
          | c :: _ => !isWordC c
        if ok then some (s.length - rest.length - 1, S "18") else none
      | _ => none
    | _ => none
  else none

/-- The lookahead `(?=\s+\d{1,2}\s*[\.\)]*\s*[a-z])` of the sub-question
pattern. -/
def lookPat (t : Str) : Bool :=
  let w := t.dropWhile isWs
  if w.length = t.length then false
  else
    let ds := w.takeWhile isDigitC
    if ds.isEmpty || decide (3 ≤ ds.length) then false
    else
      let r := w.drop ds.length
      let r := r.dropWhile isWs
      let r := r.dropWhile isDotParen
      let r := r.dropWhile isWs
      headIsAlpha r

/-- Lookahead including the `$` alternative. -/
def lookOk (t : Str) : Bool := t.isEmpty || lookPat t

/-- Lazy expansion of `[^0-9]*?` up to the first lookahead success;
digits cannot be crossed. -/
def g3Go : Str → Option Nat
  | [] => some 0
  | c :: r =>
    if lookOk (c :: r) then some 0
    else if isDigitC c then none
    else (g3Go r).map (· + 1)

/-- The sub-question pattern of `_extract_part_b` (extractor.py line 264):
`(\d{1,2})\s*[\.\)]*\s*([a-z])\s*[\.\)]*\s+([A-Za-z][^0-9]*?)(?=\s+\d{1,2}\s*[\.\)]*\s*[a-z]|$)`
(IGNORECASE), with the digit-count and whitespace/punctuation
backtracking the greedy/optional pieces admit.  Returns (number capture,
sub-letter, group 3, rest after the match). -/
def subQAt (s : Str) : Option (Str × Char × Str × Str) :=
  try12 (fun ds r =>
    let r1 := r.dropWhile isWs
    let r2 := r1.dropWhile isDotParen
    let r3 := r2.dropWhile isWs
    match r3 with
    | c :: r4 =>
      if isAlphaC c then
        let a := r4.takeWhile isWs
        let pa := r4.drop a.length
        let b := pa.takeWhile isDotParen
        let pb := pa.drop b.length
        (if b.isEmpty then
          if a.isEmpty then none else some pa
        else
          let cws := pb.takeWhile isWs
          if cws.isEmpty then none else some (pb.drop cws.length)).bind
        (fun r5 =>
          match r5 with
          | g :: r6 =>
            if isAlphaC g then
              (g3Go r6).map (fun k => (ds, c, g :: r6.take k, r6.drop k))
            else none
          | [] => none)
      else none
    | [] => none) s

/-- `re.finditer` for the sub-question pattern. -/
def subQIterGo : Nat → Str → List (Str × Char × Str)
  | _, [] => []
  | 0, _ => []
  | f + 1, c :: r =>
    match subQAt (c :: r) with
    | some (ds, sub, g3, rest) => (ds, sub, g3) :: subQIterGo f rest
    | none => subQIterGo f r

def subQIter (s : Str) : List (Str × Char × Str) := subQIterGo s.length s

/-- Trailing bare-number pattern `\s+(\d{1,2})\s*$`; returns the digit
capture. -/
def mTrailNum (s : Str) : Option Str := do
  let r ← eatWs1 s
  try12 (fun ds r2 =>
    let r2 := r2.dropWhile isWs
    if r2.isEmpty then some ds else none) r

/-- Trailing-garbage pattern `\s*[E]\s*$` (case-sensitive). -/
def mTrailE (s : Str) : Option Unit :=
  let r := s.dropWhile isWs
  match r with
  | 'E' :: r2 => if (r2.dropWhile isWs).isEmpty then some () else none
  | _ => none

/-- Guarded trailing-marks extraction with the ≤14 cap (extractor.py
lines 275-284 and 385-394): on a match, `int` is wrapped in
`try/except`, and only values ≤ 14 are accepted (and the text
truncated). -/
def capMarks (qt : Str) : Option Nat × Str :=
  match searchPos mMarksEnd qt with
  | some pd =>
    match pyInt pd.2 with
    | .ok m => if m ≤ 14 then (some m, strip (qt.take pd.1)) else (none, qt)
    | .error _ => (none, qt)
  | none => (none, qt)

/-- Per-match field extraction of `_extract_part_b` (extractor.py lines
266-307); the second, bare-number `int` call (line 290) is not guarded
by a `try`, so it is `Except`-valued. -/
def processSubQ (modNum : Nat) (t : Str × Char × Str) : Except Unit (Option ExQ) := do
  let qt := strip t.2.2
  let qt := collapseWs qt
  let mq := capMarks qt
  let mq2 : Option Nat × Str ←
    match mq.1 with
    | some _ => pure mq
    | none =>
      match searchPos mTrailNum mq.2 with
      | some pd => do
        let m ← pyInt pd.2
        if m ≤ 14 then pure (some m, strip (mq.2.take pd.1))
        else pure ((none : Option Nat), mq.2)
      | none => pure ((none : Option Nat), mq.2)
  let qt := match searchPos mTrailE mq2.2 with
    | some pd => mq2.2.take pd.1
    | none => mq2.2
  let qt := strip qt
  if 10 ≤ qt.length ∧ headIsAlpha qt then
    pure (some
      { question_number := t.1 ++ [lowerC t.2.1], text := qt,
        marks := match mq2.1 with
          | some m => if m = 0 then 7 else m
          | none => 7,
        part := S "B", module_hint := some modNum })
  else pure none

/-- One `(mod_str, mod_content)` iteration of `_extract_part_b`
(extractor.py lines 233-307). -/
def processModulePair (p : Str × Str) : Except Unit (List ExQ) :=
  let cap := strip p.1
  let modNum : Option Nat :=
    match romanVal cap with
    | some v => some v
    | none =>
      match pyInt cap with
      | .ok v => some v
      | .error _ => none
  match modNum with
  | none => .ok []
  | some mn =>
    let content := match findFrom mPartMark p.2 with
      | some j => p.2.take j
      | none => p.2
    let content := subRepB mLDigitFix content
    let content := subRepB mIEFix content
    let content := sjoin (splitWs content)
    (subQIter content).foldlM (fun acc t => do
      let qo ← processSubQ mn t
      pure (acc ++ qo.toList)) []

/-- `QuestionExtractor._extract_part_b` (extractor.py lines 222-309). -/
def extractPartB (text : Str) : Except Unit (List ExQ) :=
  (splitModules text).2.foldlM (fun acc p => do
    let l ← processModulePair p
    pure (acc ++ l)) []

/-- Fallback module update: roman lookup, else `int` guarded by
`try/except ValueError: pass` (old value kept). -/
def romanOrIntKeep (cap : Str) (cur : Option Nat) : Option Nat :=
  match romanVal cap with
  | some v => some v
  | none =>
    match pyInt cap with
    | .ok v => some v
    | .error _ => cur

/-- Fallback question-start pattern
`^(\d{1,2})\s*([a-z])?\s*[\.\)]*\s*(.+)` (IGNORECASE), with the
optional-letter and star backtracking Python performs; returns (number,
optional sub-letter, group 3). -/
def mFallbackQ (line : Str) : Option (Str × Option Char × Str) :=
  try12 (fun ds r =>
    let a := r.dropWhile isWs
    match a with
    | c :: r2 =>
      if isAlphaC c then
        let w1 := r2.dropWhile isWs
        let pb := w1.dropWhile isDotParen
        let w2 := pb.dropWhile isWs
        if !w2.isEmpty then some (ds, some c, w2)
        else if !r2.isEmpty then some (ds, some c, [List.getLastD r2 c])
        else some (ds, none, a)
      else
        let pb := a.dropWhile isDotParen
        let w2 := pb.dropWhile isWs
        if !w2.isEmpty then some (ds, none, w2)
        else if !r.isEmpty then some (ds, none, [List.getLastD r ' '])
        else none
    | [] =>
      if !r.isEmpty then some (ds, none, [List.getLastD r ' '])
      else none) line

/-- Continuation-break test `re.match(r'^(\d{1,2})\s*[a-z]?\s*\)?.*[A-Z]', ...)`
(case-sensitive): a leading digit with an uppercase letter somewhere
after it. -/
def breakQ (nl : Str) : Bool :=
  match nl with
  | c :: rest => isDigitC c && rest.any isAsciiUpper
  | [] => false

/-- Continuation-break test `re.match(r'(Module|PART)\s', ..., I)`. -/
def breakMP (nl : Str) : Bool :=
  (do
    let r ← matchLit true (S "module") nl
    match r with
    | c :: _ => if isWs c then some () else none
    | [] => none).isSome ||
  (do
    let r ← matchLit true (S "part") nl
    match r with
    | c :: _ => if isWs c then some () else none
    | [] => none).isSome

/-- Multi-line accumulation of `_fallback_extraction` (extractor.py lines
363-378): gather continuation lines until a break, returning the
accumulated text and the remaining lines. -/
def accumGo : List Str → Str → (Str × List Str)
  | [], acc => (acc, [])
  | l :: rest, acc =>
    let nl := strip l
    if breakQ nl then (acc, l :: rest)
    else if breakMP nl then (acc, l :: rest)
    else if nl.isEmpty then accumGo rest acc
    else accumGo rest (acc ++ ' ' :: nl)

/-- Guarded trailing bare-number extraction with the ≤14 cap
(extractor.py lines 396-405). -/
def capMarksBare (mq : Option Nat × Str) : Option Nat × Str :=
  match mq.1 with
  | some _ => mq
  | none =>
    match searchPos mTrailNum mq.2 with
    | some pd =>
      match pyInt pd.2 with
      | .ok m => if m ≤ 14 then (some m, strip (mq.2.take pd.1)) else (none, mq.2)
      | .error _ => (none, mq.2)
    | none => mq

/-- Main loop of `_fallback_extraction` (extractor.py lines 311-434);
`in_part_b` is assigned there but never read, so it is omitted. -/
def fbGo : Nat → List Str → Option Nat → List ExQ
  | _, [], _ => []
  | 0, _, _ => []
  | f + 1, l :: rest, curMod =>
    let line := strip l
    if line.isEmpty then fbGo f rest curMod
    else
      match mModuleMark line with
      | some (cap, _) => fbGo f rest (romanOrIntKeep cap curMod)
      | none =>
        match mFallbackQ line with
        | none => fbGo f rest curMod
        | some (ds, sub, g3) =>
          let qt0 := strip g3
          if qt0.isEmpty then fbGo f rest curMod
          else if !headIsAlpha qt0 then fbGo f rest curMod
          else
            let ar := accumGo rest qt0
            let qt := strip (collapseWs ar.1)
            let mq := capMarksBare (capMarks qt)
            let fullNum := ds ++ (match sub with
              | some c => [lowerC c]
              | none => [])
            let isPartA := match pyInt ds with
              | .ok n => decide (n ≤ 10)
              | .error _ => false
            let qlist : List ExQ :=
              if 10 ≤ mq.2.length ∧ headIsAlpha mq.2 then
                [{ question_number := fullNum, text := mq.2,
                   marks := mq.1.getD (if isPartA then 3 else 7),
                   part := if isPartA then S "A" else S "B",
                   module_hint := if isPartA then none else curMod }]
              else []
            qlist ++ fbGo f ar.2 curMod

/-- `QuestionExtractor._fallback_extraction` (extractor.py lines
311-434). -/
def fallbackExtraction (text : Str) : List ExQ :=
  fbGo (splitNl text).length (splitNl text) none

/-- `QuestionExtractor._deduplicate` (extractor.py lines 436-448). -/
def dedupGo : List ExQ → List (Str × Str) → List ExQ
  | [], _ => []
  | q :: rest, seen =>
    let k := (q.question_number, strip (lower (q.text.take 30)))
    if k ∉ seen ∧ 10 ≤ q.text.length then
      q :: dedupGo rest (k :: seen)
    else dedupGo rest seen

def deduplicate (qs : List ExQ) : List ExQ := dedupGo qs []

/-- `QuestionExtractor.extract_questions` (extractor.py lines 60-92):
clean, Part A + Part B, fallback when fewer than 5 questions, then
deduplicate. -/
def extractQuestions (s : Str) : Except Unit (List ExQ) := do
  let cleaned := cleanText s
  let pa := extractPartA cleaned
  let pb ← extractPartB cleaned
  let qs := pa ++ pb
  let qs := if qs.length < 5 then fallbackExtraction cleaned else qs
  pure (deduplicate qs)

end Extractor

/-! # Claim theorems -/

/-- The priority-tier rule exactly as the specification words it (§4.7):
`freq ≥ tier1 → 1`, else `≥ tier2 → 2`, else `≥ tier3 → 3`, else `4`. -/
def tierSpec (freq t1 t2 t3 : Nat) : Nat :=
  if freq ≥ t1 then 1
  else if freq ≥ t2 then 2
  else if freq ≥ t3 then 3
  else 4

/-- C6: the priority-tier function is total over frequencies and follows
the piecewise spec rule; with the default thresholds (tier1=4, tier2=3,
tier3=2, used when no thresholds dict is supplied) a frequency of exactly
4 gives tier 1 and a frequency of exactly 1 gives tier 4. -/
theorem claim_C6 (f : Nat) (tt : Models.TierThresholds) :
    Models.updatePriorityTier f (some tt)
      = tierSpec f (tt.tier1.getD 4) (tt.tier2.getD 3) (tt.tier3.getD 2)
    ∧ Models.updatePriorityTier f none = tierSpec f 4 3 2
    ∧ 1 ≤ Models.updatePriorityTier f (some tt)
    ∧ Models.updatePriorityTier f (some tt) ≤ 4
    ∧ Models.updatePriorityTier 4 none = 1
    ∧ Models.updatePriorityTier 1 none = 4 := by
  refine ⟨rfl, rfl, ?_, ?_, by decide, by decide⟩ <;>
    · simp only [Models.updatePriorityTier]
      split <;> [simp; split] <;> [simp; split] <;> simp

/-! ### Normalizer lemmas (token shape, character classes, round trips) -/

namespace Py

theorem toNat_ofNat_valid (n : Nat) (h : n.isValidChar) :
    (Char.ofNat n).toNat = n := by
  simp only [Char.ofNat, dif_pos h, Char.ofNatAux, Char.toNat]
  rfl

theorem isAsciiUpper_lowerC (c : Char) : isAsciiUpper (lowerC c) = false := by
  unfold lowerC
  by_cases h : isAsciiUpper c = true
  · rw [if_pos h]
    unfold isAsciiUpper at *
    simp only [Bool.and_eq_true, decide_eq_true_eq] at h
    have hv : (c.toNat + 32).isValidChar := Or.inl (by omega)
    simp only [Bool.and_eq_false_iff, decide_eq_false_iff_not,
      toNat_ofNat_valid _ hv]
    omega
  · rw [if_neg h]
    exact Bool.not_eq_true _ ▸ h

theorem lowerC_eq_self {c : Char} (h : isAsciiUpper c = false) : lowerC c = c := by
  unfold lowerC
  rw [if_neg (by simp [h])]

theorem mem_lower_not_upper {c : Char} {s : Str} (h : c ∈ lower s) :
    isAsciiUpper c = false := by
  rcases List.mem_map.mp h with ⟨a, _, rfl⟩
  exact isAsciiUpper_lowerC a

theorem lower_eq_self {s : Str} (h : ∀ c ∈ s, isAsciiUpper c = false) :
    lower s = s := by
  unfold lower
  rw [List.map_congr_left (fun c hc => lowerC_eq_self (h c hc))]
  exact List.map_id s

theorem mem_subDelGo {m : Str → Option Nat} :
    ∀ (f : Nat) (s : Str) (c : Char), c ∈ subDelGo m f s → c ∈ s := by
  intro f
  induction f with
  | zero => intro s c h; cases s <;> simp [subDelGo] at h
  | succ f ih =>
    intro s c h
    cases s with
    | nil => simp [subDelGo] at h
    | cons a rest =>
      unfold subDelGo at h
      cases hm : m (a :: rest) with
      | some k =>
        rw [hm] at h
        exact List.mem_cons_of_mem a (List.mem_of_mem_drop (ih _ _ h))
      | none =>
        rw [hm] at h
        rcases List.mem_cons.mp h with h | h
        · exact h ▸ List.mem_cons_self a rest
        · exact List.mem_cons_of_mem a (ih _ _ h)

theorem mem_subDel {m : Str → Option Nat} {s : Str} {c : Char}
    (h : c ∈ subDel m s) : c ∈ s := mem_subDelGo _ _ _ h

theorem mem_collapseWsF :
    ∀ (b : Bool) (s : Str) (c : Char), c ∈ collapseWsF b s → c = ' ' ∨ c ∈ s := by
  intro b s
  induction s generalizing b with
  | nil => intro c h; simp [collapseWsF] at h
  | cons a rest ih =>
    intro c h
    unfold collapseWsF at h
    by_cases hw : isWs a = true
    · rw [if_pos hw] at h
      cases b with
      | true =>
        simp only [if_pos] at h
        rcases ih true c h with h' | h'
        · exact Or.inl h'
        · exact Or.inr (List.mem_cons_of_mem a h')
      | false =>
        rcases List.mem_cons.mp h with h' | h'
        · exact Or.inl h'
        · rcases ih true c h' with h'' | h''
          · exact Or.inl h''
          · exact Or.inr (List.mem_cons_of_mem a h'')
    · rw [if_neg hw] at h
      rcases List.mem_cons.mp h with h' | h'
      · exact Or.inr (h' ▸ List.mem_cons_self a rest)
      · rcases ih false c h' with h'' | h''
        · exact Or.inl h''
        · exact Or.inr (List.mem_cons_of_mem a h'')

end Py

namespace TextNormalizer

open Py

theorem mem_replaceSpecial {s : Str} {c : Char} (h : c ∈ replaceSpecial s) :
    c = ' ' ∨ (c ∈ s ∧ keptChar c = true) := by
  rcases List.mem_map.mp h with ⟨a, ha, rfl⟩
  by_cases hk : keptChar a = true
  · exact Or.inr (by simp [hk, ha])
  · simp [hk]

theorem keptChar_space : keptChar ' ' = true := by decide

/-- Tokens of `splitWs` are nonempty, whitespace-free, and inherit any
character property of the non-whitespace input characters. -/
theorem splitWsAux_tokens (P : Char → Prop) :
    ∀ (s acc : Str), (∀ c ∈ s, isWs c = false → P c) →
      (∀ c ∈ acc, P c ∧ isWs c = false) →
      ∀ w ∈ splitWsAux s acc, w ≠ [] ∧ ∀ c ∈ w, P c ∧ isWs c = false := by
  intro s
  induction s with
  | nil =>
    intro acc _ hacc w hw
    unfold splitWsAux at hw
    by_cases he : acc.isEmpty
    · simp [he] at hw
    · rw [if_neg he] at hw
      rcases List.mem_singleton.mp hw with rfl
      constructor
      · simpa [List.isEmpty_iff] using he
      · intro c hc; exact hacc c (List.mem_reverse.mp hc)
  | cons a rest ih =>
    intro acc hs hacc w hw
    unfold splitWsAux at hw
    by_cases hws : isWs a = true
    · rw [if_pos hws] at hw
      have hrest : ∀ c ∈ rest, isWs c = false → P c :=
        fun c hc => hs c (List.mem_cons_of_mem a hc)
      by_cases he : acc.isEmpty
      · rw [if_pos he] at hw
        exact ih [] hrest (by simp) w hw
      · rw [if_neg he] at hw
        rcases List.mem_cons.mp hw with rfl | hw2
        · constructor
          · simpa [List.isEmpty_iff] using he
          · intro c hc; exact hacc c (List.mem_reverse.mp hc)
        · exact ih [] hrest (by simp) w hw2
    · rw [if_neg hws] at hw
      refine ih (a :: acc) (fun c hc => hs c (List.mem_cons_of_mem a hc)) ?_ w hw
      intro c hc
      rcases List.mem_cons.mp hc with heq | hc2
      · subst heq
        exact ⟨hs _ (List.mem_cons_self _ rest) (by simpa using hws), by simpa using hws⟩
      · exact hacc c hc2

theorem splitWs_tokens (P : Char → Prop) {s : Str}
    (hs : ∀ c ∈ s, isWs c = false → P c) :
    ∀ w ∈ splitWs s, w ≠ [] ∧ ∀ c ∈ w, P c ∧ isWs c = false :=
  splitWsAux_tokens P s [] hs (by simp)

theorem mem_sjoin {ts : List Str} {c : Char} (h : c ∈ sjoin ts) :
    c = ' ' ∨ ∃ w ∈ ts, c ∈ w := by
  induction ts with
  | nil => simp [sjoin] at h
  | cons w rest ih =>
    cases rest with
    | nil =>
      simp only [sjoin] at h
      exact Or.inr ⟨w, List.mem_singleton_self w, h⟩
    | cons v rest2 =>
      simp only [sjoin, List.mem_append, List.mem_cons] at h
      rcases h with h | h | h
      · exact Or.inr ⟨w, List.mem_cons_self _ _, h⟩
      · exact Or.inl h
      · rcases ih h with h' | ⟨u, hu, hcu⟩
        · exact Or.inl h'
        · exact Or.inr ⟨u, List.mem_cons_of_mem w hu, hcu⟩

/-- "Good" token lists: every token nonempty and whitespace-free. -/
def GoodToks (ts : List Str) : Prop :=
  ∀ w ∈ ts, w ≠ [] ∧ ∀ c ∈ w, isWs c = false

theorem splitWsAux_nil (acc : Str) :
    splitWsAux [] acc = if acc.isEmpty then [] else [acc.reverse] := rfl

theorem splitWsAux_cons (c : Char) (rest acc : Str) :
    splitWsAux (c :: rest) acc =
      if isWs c then
        if acc.isEmpty then splitWsAux rest []
        else acc.reverse :: splitWsAux rest []
      else splitWsAux rest (c :: acc) := rfl

theorem collapseWsF_cons (b : Bool) (c : Char) (rest : Str) :
    collapseWsF b (c :: rest) =
      if isWs c then
        if b then collapseWsF true rest else ' ' :: collapseWsF true rest
      else c :: collapseWsF false rest := rfl

theorem sjoin_cons_cons (w v : Str) (rest : List Str) :
    sjoin (w :: v :: rest) = w ++ ' ' :: sjoin (v :: rest) := rfl

theorem dropWhile_eq_self_of_head {s : Str}
    (h : ∀ c, s.head? = some c → isWs c = false) : s.dropWhile isWs = s := by
  cases s with
  | nil => rfl
  | cons a r =>
    rw [List.dropWhile_cons, if_neg]
    simp [h a rfl]

theorem strip_eq_self {s : Str}
    (h1 : ∀ c, s.head? = some c → isWs c = false)
    (h2 : ∀ c, s.reverse.head? = some c → isWs c = false) : strip s = s := by
  unfold strip
  rw [dropWhile_eq_self_of_head h1, dropWhile_eq_self_of_head h2,
    List.reverse_reverse]

theorem sjoin_head_nonws {ts : List Str} (hg : GoodToks ts) :
    ∀ c, (sjoin ts).head? = some c → isWs c = false := by
  intro c hc
  cases ts with
  | nil => simp [sjoin] at hc
  | cons w rest =>
    obtain ⟨hne, hw⟩ := hg w (List.mem_cons_self _ _)
    have hhead : (sjoin (w :: rest)).head? = w.head? := by
      cases rest with
      | nil => rfl
      | cons v r2 =>
        show (w ++ ' ' :: sjoin (v :: r2)).head? = w.head?
        cases w with
        | nil => exact absurd rfl hne
        | cons x xs => rfl
    rw [hhead] at hc
    cases w with
    | nil => exact absurd rfl hne
    | cons x xs =>
      have hx : x = c := by simpa using hc
      exact hx ▸ hw x (List.mem_cons_self _ _)

theorem sjoin_ne_nil {v : Str} {r2 : List Str} (h : v ≠ []) :
    sjoin (v :: r2) ≠ [] := by
  cases r2 with
  | nil => exact h
  | cons u r3 =>
    show v ++ ' ' :: sjoin (u :: r3) ≠ []
    simp

theorem sjoin_getLast_nonws {ts : List Str} (hg : GoodToks ts) :
    ∀ c, (sjoin ts).getLast? = some c → isWs c = false := by
  induction ts with
  | nil => intro c hc; simp [sjoin] at hc
  | cons w rest ih =>
    intro c hc
    cases rest with
    | nil =>
      obtain ⟨hne, hw⟩ := hg w (List.mem_cons_self _ _)
      rcases List.getLast?_eq_some_iff.mp hc with ⟨ys, hys⟩
      exact hw c (by
        show c ∈ w
        rw [show (w : Str) = sjoin [w] from rfl, hys]
        exact List.mem_append.mpr (Or.inr (List.mem_singleton_self c)))
    | cons v r2 =>
      have hvne : v ≠ [] := (hg v (by simp)).1
      have hne2 : sjoin (v :: r2) ≠ [] := sjoin_ne_nil hvne
      have hstep : (sjoin (w :: v :: r2)).getLast? = (sjoin (v :: r2)).getLast? := by
        show (w ++ ' ' :: sjoin (v :: r2)).getLast? = _
        rw [List.getLast?_append]
        cases hx : sjoin (v :: r2) with
        | nil => exact absurd hx hne2
        | cons y ys =>
          have hd : ∃ d, (y :: ys).getLast? = some d := by
            cases hgl : (y :: ys).getLast? with
            | some d => exact ⟨d, rfl⟩
            | none => simp at hgl
          obtain ⟨d, hd⟩ := hd
          simp [List.getLast?_cons_cons, hd, Option.or]
      rw [hstep] at hc
      exact ih (fun u hu => hg u (List.mem_cons_of_mem _ hu)) c hc

theorem sjoin_revhead_nonws {ts : List Str} (hg : GoodToks ts) :
    ∀ c, (sjoin ts).reverse.head? = some c → isWs c = false := by
  intro c hc
  rw [List.head?_reverse] at hc
  exact sjoin_getLast_nonws hg c hc

theorem strip_sjoin {ts : List Str} (hg : GoodToks ts) :
    strip (sjoin ts) = sjoin ts :=
  strip_eq_self (sjoin_head_nonws hg) (sjoin_revhead_nonws hg)

theorem splitWsAux_append_nonws {w : Str} (hw : ∀ c ∈ w, isWs c = false) :
    ∀ (s acc : Str), splitWsAux (w ++ s) acc = splitWsAux s (w.reverse ++ acc) := by
  induction w with
  | nil => intro s acc; simp
  | cons x xs ih =>
    intro s acc
    have hx : isWs x = false := hw x (List.mem_cons_self _ _)
    show splitWsAux (x :: (xs ++ s)) acc = _
    rw [splitWsAux_cons, if_neg (by simp [hx])]
    rw [ih (fun c hc => hw c (List.mem_cons_of_mem _ hc)) s (x :: acc)]
    simp

theorem splitWs_sjoin {ts : List Str} (hg : GoodToks ts) :
    splitWs (sjoin ts) = ts := by
  induction ts with
  | nil => rfl
  | cons w rest ih =>
    obtain ⟨hne, hw⟩ := hg w (List.mem_cons_self _ _)
    cases rest with
    | nil =>
      show splitWsAux (sjoin [w]) [] = [w]
      have h1 : sjoin [w] = w ++ [] := by simp [sjoin]
      rw [h1, splitWsAux_append_nonws hw, splitWsAux_nil]
      rw [if_neg (by simp [List.isEmpty_iff, hne])]
      simp
    | cons v r2 =>
      show splitWsAux (w ++ ' ' :: sjoin (v :: r2)) [] = w :: v :: r2
      rw [splitWsAux_append_nonws hw, splitWsAux_cons]
      rw [if_pos (by decide)]
      rw [if_neg (by simp [List.isEmpty_iff, hne])]
      have hrec := ih (fun u hu => hg u (List.mem_cons_of_mem _ hu))
      rw [show splitWs (sjoin (v :: r2)) = splitWsAux (sjoin (v :: r2)) [] from rfl] at hrec
      rw [hrec]
      simp

theorem collapseWsF_nonws_prefix {w : Str} (hw : ∀ c ∈ w, isWs c = false) :
    ∀ t : Str, collapseWsF false (w ++ t) = w ++ collapseWsF false t := by
  induction w with
  | nil => intro t; rfl
  | cons x xs ih =>
    intro t
    have hx : isWs x = false := hw x (List.mem_cons_self _ _)
    show collapseWsF false (x :: (xs ++ t)) = _
    rw [collapseWsF_cons, if_neg (by simp [hx])]
    rw [ih (fun c hc => hw c (List.mem_cons_of_mem _ hc)) t]
    rfl

theorem collapseWsF_flag_of_head {s : Str}
    (h : ∀ c, s.head? = some c → isWs c = false) (b : Bool) :
    collapseWsF b s = collapseWsF false s := by
  cases s with
  | nil => cases b <;> rfl
  | cons x xs =>
    have hx : isWs x = false := h x rfl
    rw [collapseWsF_cons, collapseWsF_cons]
    rw [if_neg (by simp [hx]), if_neg (by simp [hx])]

theorem collapseWs_sjoin {ts : List Str} (hg : GoodToks ts) :
    collapseWs (sjoin ts) = sjoin ts := by
  show collapseWsF false (sjoin ts) = sjoin ts
  induction ts with
  | nil => rfl
  | cons w rest ih =>
    obtain ⟨hne, hw⟩ := hg w (List.mem_cons_self _ _)
    cases rest with
    | nil =>
      show collapseWsF false (sjoin [w]) = sjoin [w]
      have h1 : sjoin [w] = w ++ [] := by simp [sjoin]
      rw [h1, collapseWsF_nonws_prefix hw]
      rfl
    | cons v r2 =>
      rw [sjoin_cons_cons, collapseWsF_nonws_prefix hw, collapseWsF_cons]
      rw [if_pos (by decide), if_neg (by decide)]
      rw [collapseWsF_flag_of_head
        (sjoin_head_nonws (fun u hu => hg u (List.mem_cons_of_mem _ hu))) true]
      rw [ih (fun u hu => hg u (List.mem_cons_of_mem _ hu))]

theorem keepWord_iff {w : Str} :
    keepWord w = true ↔ w ∉ STOPWORDS ∧ 3 ≤ w.length := by
  unfold keepWord
  simp only [Bool.and_eq_true, Bool.not_eq_true', decide_eq_true_eq,
    List.contains, List.elem_eq_mem, decide_eq_false_iff_not]
  exact ⟨fun h => ⟨h.1, by omega⟩, fun h => ⟨h.1, by omega⟩⟩

theorem replaceSpecial_eq_self {s : Str} (h : ∀ c ∈ s, keptChar c = true) :
    replaceSpecial s = s := by
  unfold replaceSpecial
  rw [List.map_congr_left (fun c hc => by rw [if_pos (h c hc)])]
  exact List.map_id s

theorem mem_removePats {t : Str} {c : Char} (h : c ∈ removePats t) : c ∈ t := by
  unfold removePats at h
  exact mem_subDel (mem_subDel (mem_subDel (mem_subDel (mem_subDel
    (mem_subDel (mem_subDel h))))))

/-- The filtered token list that `normalize` joins. -/
def normToks (s : Str) : List Str :=
  (splitWs (collapseWs (replaceSpecial (removePats (lower s))))).filter keepWord

theorem normalize_eq (s : Str) (h : s.isEmpty = false) :
    normalize s = strip (sjoin (normToks s)) := by
  unfold normalize normToks
  rw [if_neg (by simp [h])]

theorem normToks_facts (s : Str) :
    ∀ w ∈ normToks s, w ≠ [] ∧ keepWord w = true ∧
      ∀ c ∈ w, isWs c = false ∧ isAsciiUpper c = false ∧ keptChar c = true := by
  intro w hw
  have hw2 := List.mem_filter.mp hw
  have hchar : ∀ c ∈ collapseWs (replaceSpecial (removePats (lower s))),
      isAsciiUpper c = false ∧ keptChar c = true := by
    intro c hc
    rcases mem_collapseWsF false _ c hc with rfl | hc2
    · exact ⟨by decide, keptChar_space⟩
    · rcases mem_replaceSpecial hc2 with rfl | ⟨hc3, hk⟩
      · exact ⟨by decide, keptChar_space⟩
      · exact ⟨mem_lower_not_upper (mem_removePats hc3), hk⟩
  have := splitWs_tokens
    (fun c => isAsciiUpper c = false ∧ keptChar c = true)
    (fun c hc _ => hchar c hc) w hw2.1
  exact ⟨this.1, hw2.2, fun c hc =>
    ⟨(this.2 c hc).2, (this.2 c hc).1.1, (this.2 c hc).1.2⟩⟩

theorem normToks_good (s : Str) : GoodToks (normToks s) := by
  intro w hw
  obtain ⟨h1, _, h3⟩ := normToks_facts s w hw
  exact ⟨h1, fun c hc => (h3 c hc).1⟩

/-- C10: normalizer output structure — `normalize s` is exactly the
space-join of its kept tokens. -/
theorem normalize_sjoin (s : Str) (h : s.isEmpty = false) :
    normalize s = sjoin (normToks s) := by
  rw [normalize_eq s h, strip_sjoin (normToks_good s)]

theorem mem_normalize_cases {s : Str} {c : Char} (hc : c ∈ normalize s) :
    c = ' ' ∨ ∃ w ∈ normToks s, c ∈ w := by
  by_cases h : s.isEmpty
  · unfold normalize at hc
    rw [if_pos h] at hc
    simp at hc
  · rw [normalize_sjoin s (by simpa using h)] at hc
    exact mem_sjoin hc

end TextNormalizer

/-- C10: every character of `TextNormalizer.normalize`'s output is
non-uppercase, and every whitespace-separated token of the output has
length at least 3 and is not a stopword. -/
theorem claim_C10 (s : Str) :
    (∀ c ∈ TextNormalizer.normalize s, Py.isAsciiUpper c = false) ∧
    (∀ w ∈ Py.splitWs (TextNormalizer.normalize s),
      3 ≤ w.length ∧ w ∉ TextNormalizer.STOPWORDS) := by
  constructor
  · intro c hc
    rcases TextNormalizer.mem_normalize_cases hc with rfl | ⟨w, hw, hcw⟩
    · decide
    · exact ((TextNormalizer.normToks_facts s w hw).2.2 c hcw).2.1
  · intro w hw
    by_cases h : s.isEmpty
    · unfold TextNormalizer.normalize at hw
      rw [if_pos h] at hw
      simp [Py.splitWs, Py.splitWsAux] at hw
    · rw [TextNormalizer.normalize_sjoin s (by simpa using h),
        TextNormalizer.splitWs_sjoin (TextNormalizer.normToks_good s)] at hw
      have hk := (TextNormalizer.normToks_facts s w hw).2.1
      have := TextNormalizer.keepWord_iff.mp hk
      exact ⟨this.2, this.1⟩

/-- C10 witness at a concrete input. -/
theorem claim_C10_witness :
    (S "entropy") ∈ Py.splitWs (TextNormalizer.normalize (S "Define the entropy concept.")) ∧
    3 ≤ (S "entropy").length ∧ (S "entropy") ∉ TextNormalizer.STOPWORDS :=
  ⟨by decide, (claim_C10 (S "Define the entropy concept.")).2 (S "entropy") (by decide)⟩

/-- C3 (counterexample): text normalization is not idempotent — removal
patterns can re-form across deleted spans (`"12[a]34"` normalizes to
`"1234"`, which a second pass deletes as a year-like digit run). -/
theorem claim_C3_counterexample :
    TextNormalizer.normalize (TextNormalizer.normalize (S "12[a]34"))
      ≠ TextNormalizer.normalize (S "12[a]34") := by decide

/-- C3 (amended): `normalize` is idempotent on exactly those inputs whose
normalized form contains no further occurrence of a removal pattern
(i.e. on which the `REMOVE_PATTERNS` substitution pass is the identity);
in general a second application can remove more. -/
theorem claim_C3_amended (x : Str)
    (h : TextNormalizer.removePats (TextNormalizer.normalize x)
          = TextNormalizer.normalize x) :
    TextNormalizer.normalize (TextNormalizer.normalize x)
      = TextNormalizer.normalize x := by
  by_cases hx : (TextNormalizer.normalize x).isEmpty = true
  · have h0 : TextNormalizer.normalize x = [] := List.isEmpty_iff.mp hx
    rw [h0]
    rfl
  · have hx' : (TextNormalizer.normalize x).isEmpty = false := by simpa using hx
    have hxs : x.isEmpty = false := by
      by_contra hc
      have hc' : x.isEmpty = true := by simpa using hc
      have h0 : TextNormalizer.normalize x = [] := by
        unfold TextNormalizer.normalize
        rw [if_pos hc']
      rw [h0] at hx'
      simp at hx'
    have hyjoin := TextNormalizer.normalize_sjoin x hxs
    have hgood := TextNormalizer.normToks_good x
    have hlower : Py.lower (TextNormalizer.normalize x)
        = TextNormalizer.normalize x := by
      apply Py.lower_eq_self
      intro c hc
      rcases TextNormalizer.mem_normalize_cases hc with rfl | ⟨w, hw, hcw⟩
      · decide
      · exact ((TextNormalizer.normToks_facts x w hw).2.2 c hcw).2.1
    have hkept : ∀ c ∈ TextNormalizer.normalize x,
        TextNormalizer.keptChar c = true := by
      intro c hc
      rcases TextNormalizer.mem_normalize_cases hc with rfl | ⟨w, hw, hcw⟩
      · exact TextNormalizer.keptChar_space
      · exact ((TextNormalizer.normToks_facts x w hw).2.2 c hcw).2.2
    have htoks : TextNormalizer.normToks (TextNormalizer.normalize x)
        = TextNormalizer.normToks x := by
      unfold TextNormalizer.normToks
      rw [hlower, h, TextNormalizer.replaceSpecial_eq_self hkept, hyjoin]
      rw [TextNormalizer.collapseWs_sjoin hgood, TextNormalizer.splitWs_sjoin hgood]
      exact List.filter_eq_self.mpr
        (fun w hw => (TextNormalizer.normToks_facts x w hw).2.1)
    rw [TextNormalizer.normalize_eq _ hx', htoks,
      TextNormalizer.strip_sjoin hgood, ← hyjoin]

/-- C3 witness: a concrete input on which the no-further-match hypothesis
holds and idempotence follows. -/
theorem claim_C3_witness :
    TextNormalizer.removePats (TextNormalizer.normalize (S "Define the entropy concept."))
        = TextNormalizer.normalize (S "Define the entropy concept.") ∧
    TextNormalizer.normalize (TextNormalizer.normalize (S "Define the entropy concept."))
        = TextNormalizer.normalize (S "Define the entropy concept.") :=
  ⟨by decide, claim_C3_amended (S "Define the entropy concept.") (by decide)⟩

/-! ### Similarity lemmas -/

namespace Py

theorem foldl_sq_nonneg : ∀ (t : List ℚ) (acc : ℚ), 0 ≤ acc →
    0 ≤ (t.zip t).foldl (fun a p => a + p.1 * p.2) acc := by
  intro t
  induction t with
  | nil => intro acc h; simpa using h
  | cons x rest ih =>
    intro acc h
    rw [List.zip_cons_cons, List.foldl_cons]
    exact ih (acc + x * x) (add_nonneg h (mul_self_nonneg x))

theorem dotQ_self_nonneg (e : List ℚ) : 0 ≤ dotQ e e :=
  foldl_sq_nonneg e 0 le_rfl

theorem union_eq_right {α : Type} [DecidableEq α] :
    ∀ (l₁ l₂ : List α), (∀ a ∈ l₁, a ∈ l₂) → l₁ ∪ l₂ = l₂ := by
  intro l₁
  induction l₁ with
  | nil => intro l₂ _; rfl
  | cons a r ih =>
    intro l₂ h
    show List.insert a (r ∪ l₂) = l₂
    rw [ih l₂ (fun b hb => h b (List.mem_cons_of_mem a hb))]
    exact List.insert_of_mem (h a (List.mem_cons_self _ _))

theorem dedup_self_append {α : Type} [DecidableEq α] (l : List α) :
    (l.dedup ++ l.dedup).dedup = l.dedup := by
  rw [List.dedup_append, List.dedup_idem]
  exact union_eq_right _ _ (fun a ha => ha)

end Py

namespace Clusterer

open Py

/-- Jaccard of a non-degenerate text with itself is exactly 1. -/
theorem textSimilarity_self {t : Str} (h : splitWs t ≠ []) :
    textSimilarity t t = 1 := by
  have htne : t.isEmpty = false := by
    cases t with
    | nil => exact absurd rfl h
    | cons a r => rfl
  have hwne : (splitWs t).dedup ≠ [] := by
    simpa [List.dedup_eq_nil] using h
  unfold textSimilarity
  rw [if_neg (by simp [htne])]
  rw [if_neg (by simp [List.isEmpty_iff, hwne])]
  rw [if_neg (by
    simp only [List.isEmpty_iff]
    rw [dedup_self_append (splitWs t)]
    exact hwne)]
  rw [List.filter_eq_self.mpr (fun a ha => decide_eq_true ha)]
  rw [dedup_self_append (splitWs t)]
  rw [div_self (by
    simp only [ne_eq, Nat.cast_eq_zero, List.length_eq_zero]
    exact hwne)]

/-- C4 (amended), core computation: self-similarity is 1 whenever the
normalized text has at least one token. -/
theorem calcSimilarity_self {q : Question}
    (h : splitWs q.normalized_text ≠ []) :
    calcSimilarity q q = 1 := by
  have hfall : ((textSimilarity q.normalized_text q.normalized_text : ℚ) : ℝ) = 1 := by
    rw [textSimilarity_self h]
    norm_num
  rcases hq : q.embedding with _ | e
  · unfold calcSimilarity
    rw [hq]
    exact hfall
  · unfold calcSimilarity
    rw [hq]
    show (if (e.isEmpty || e.isEmpty) = true then
        ((textSimilarity q.normalized_text q.normalized_text : ℚ) : ℝ)
      else if e.length ≠ e.length then
        ((textSimilarity q.normalized_text q.normalized_text : ℚ) : ℝ)
      else if 0 < Real.sqrt ((dotQ e e : ℚ) : ℝ) ∧ 0 < Real.sqrt ((dotQ e e : ℚ) : ℝ) then
        max 0 (min 1 (((dotQ e e : ℚ) : ℝ)
          / (Real.sqrt ((dotQ e e : ℚ) : ℝ) * Real.sqrt ((dotQ e e : ℚ) : ℝ))))
      else ((textSimilarity q.normalized_text q.normalized_text : ℚ) : ℝ)) = 1
    by_cases he : e.isEmpty = true
    · rw [if_pos (by simp [he])]
      exact hfall
    · rw [if_neg (by simp [he])]
      rw [if_neg (by simp)]
      rcases lt_or_eq_of_le (dotQ_self_nonneg e) with hpos | hzero
      · have hcast : (0 : ℝ) < ((dotQ e e : ℚ) : ℝ) := by exact_mod_cast hpos
        have hsq : 0 < Real.sqrt ((dotQ e e : ℚ) : ℝ) := Real.sqrt_pos.mpr hcast
        rw [if_pos ⟨hsq, hsq⟩]
        rw [Real.mul_self_sqrt (le_of_lt hcast)]
        rw [div_self (ne_of_gt hcast)]
        norm_num
      · rw [if_neg (by
          rw [← hzero]
          simp [Real.sqrt_zero])]
        exact hfall

end Clusterer

/-- C4 (amended): for every question whose normalized text has at least
one token, `TopicClusterer._calculate_similarity` of the question with
itself is exactly 1 (in exact arithmetic, for every embedding state). -/
theorem claim_C4_amended (q : Question) (h : Py.splitWs q.normalized_text ≠ []) :
    Clusterer.calcSimilarity q q = 1 :=
  Clusterer.calcSimilarity_self h

/-- C4 (counterexample): a question whose text normalizes to the empty
string (e.g. "What is the answer?" — every word is a stopword) has
self-similarity 0.0, not 1.0. -/
theorem claim_C4_counterexample :
    TextNormalizer.normalize (S "What is the answer?") = [] ∧
    Clusterer.calcSimilarity
      { id := 1, question_number := S "1", text := S "What is the answer?",
        normalized_text := TextNormalizer.normalize (S "What is the answer?"),
        marks := some 3, part := S "A", embedding := none,
        paper := { id := 1, year := S "2021" } }
      { id := 1, question_number := S "1", text := S "What is the answer?",
        normalized_text := TextNormalizer.normalize (S "What is the answer?"),
        marks := some 3, part := S "A", embedding := none,
        paper := { id := 1, year := S "2021" } } = 0
    ∧ (0 : ℝ) ≠ 1 := by
  have hn : TextNormalizer.normalize (S "What is the answer?") = [] := by decide
  refine ⟨hn, ?_, by norm_num⟩
  unfold Clusterer.calcSimilarity
  simp only [hn, Clusterer.textSimilarity]
  norm_num

/-- C4 witness: a concrete question with a one-token normalized text. -/
theorem claim_C4_witness :
    Py.splitWs ((
      { id := 1, question_number := S "1", text := S "Entropy basics",
        normalized_text := S "entropy", marks := some 3, part := S "A",
        embedding := none, paper := { id := 1, year := S "2021" } } :
        Question)).normalized_text ≠ [] ∧
    Clusterer.calcSimilarity
      { id := 1, question_number := S "1", text := S "Entropy basics",
        normalized_text := S "entropy", marks := some 3, part := S "A",
        embedding := none, paper := { id := 1, year := S "2021" } }
      { id := 1, question_number := S "1", text := S "Entropy basics",
        normalized_text := S "entropy", marks := some 3, part := S "A",
        embedding := none, paper := { id := 1, year := S "2021" } } = 1 :=
  ⟨by decide, claim_C4_amended _ (by decide)⟩

/-- C2 (amended): `TopicClusteringService._are_similar` does follow the
claimed fixed stage order — with the fuzzy library available it equals
the spec-worded decision chain on the normalized texts and embeddings. -/
theorem claim_C2_amended (θ : ℚ) (q1 q2 : Question) :
    SvcClustering.areSimilar true θ q1 q2
      = SvcClustering.specChainDecision θ
          (SvcClustering.normalizeText q1.text)
          (SvcClustering.normalizeText q2.text) q1.embedding q2.embedding := by
  unfold SvcClustering.areSimilar SvcClustering.specChainDecision
  simp only [Bool.true_and]

/-- C2 (counterexample): `TopicClusterer._calculate_similarity` does not
follow the claimed order — with both embeddings present it evaluates
cosine FIRST, so two questions with identical (long) normalized texts but
orthogonal embeddings score 0.0 (not similar at threshold 0.75), while
the claimed chain is decisively similar at its fuzzy stage. -/
theorem claim_C2_counterexample :
    Clusterer.calcSimilarity
      { id := 1, question_number := S "11a",
        text := S "carnot cycle efficiency derivation",
        normalized_text := S "carnot cycle efficiency derivation",
        marks := some 7, part := S "B", embedding := some [1, 0],
        paper := { id := 1, year := S "2021" } }
      { id := 2, question_number := S "12a",
        text := S "carnot cycle efficiency derivation",
        normalized_text := S "carnot cycle efficiency derivation",
        marks := some 7, part := S "B", embedding := some [0, 1],
        paper := { id := 2, year := S "2022" } } = 0
    ∧ ¬ ((3/4 : ℝ) ≤ (0 : ℝ))
    ∧ SvcClustering.specChainDecision (3/4)
        (S "carnot cycle efficiency derivation")
        (S "carnot cycle efficiency derivation")
        (some [1, 0]) (some [0, 1]) = true := by
  refine ⟨?_, by norm_num, ?_⟩
  · have hd11 : Py.dotQ [1, 0] [1, 0] = 1 := by
      simp [Py.dotQ, List.zip]
    have hd22 : Py.dotQ [0, 1] [0, 1] = 1 := by
      simp [Py.dotQ, List.zip]
    have hd12 : Py.dotQ [1, 0] [0, 1] = 0 := by
      simp [Py.dotQ, List.zip]
    unfold Clusterer.calcSimilarity
    simp only [hd11, hd22, hd12]
    norm_num [Real.sqrt_one]
  · unfold SvcClustering.specChainDecision
    rw [if_neg (by decide)]
    have hsort : Py.sjoin (Py.pySortStrs (Py.splitWs (S "carnot cycle efficiency derivation")))
        = S "carnot cycle derivation efficiency" := by decide
    have hl : RapidFuzz.lcs (S "carnot cycle derivation efficiency")
        (S "carnot cycle derivation efficiency") = 34 := by decide
    have hscore : (3/4 : ℚ) ≤ RapidFuzz.tokenSortScore
        (S "carnot cycle efficiency derivation")
        (S "carnot cycle efficiency derivation") := by
      rw [RapidFuzz.tokenSortScore, hsort, RapidFuzz.indelSim, hl]
      have hlen : (S "carnot cycle derivation efficiency").length = 34 := by decide
      simp only [hlen]
      norm_num
    rw [if_pos (decide_eq_true hscore)]

namespace Py

theorem length_insertSorted (x : Str) : ∀ l, (insertSorted x l).length = l.length + 1 := by
  intro l
  induction l with
  | nil => rfl
  | cons y ys ih =>
    unfold insertSorted
    by_cases h : strLtB y x = true
    · rw [if_pos h]
      simp [ih]
    · rw [if_neg h]
      simp

theorem length_pySortStrs (l : List Str) : (pySortStrs l).length = l.length := by
  suffices h : ∀ (l acc : List Str),
      (l.foldl (fun acc x => insertSorted x acc) acc).length = acc.length + l.length by
    simpa using h l []
  intro l
  induction l with
  | nil => intro acc; simp
  | cons x xs ih =>
    intro acc
    rw [List.foldl_cons, ih (insertSorted x acc), length_insertSorted,
      List.length_cons]
    omega

end Py

/-- C1 (amended): `TopicClusteringService` stores
`frequency_count = |distinct non-blank years of the members|` (which is
also the length of the stored `years_appeared`), while `TopicClusterer`
stores `frequency_count = raw member count`. -/
theorem claim_C1_amended :
    (∀ (fa : Bool) (θ : ℚ) (t1 t2 t3 : Nat) (m : Option Nat)
        (qs : List Question) (c : SvcClustering.ClusterS),
      c ∈ SvcClustering.clusterModuleQuestionsSvc fa θ t1 t2 t3 m qs →
        c.frequency_count = (SvcClustering.validYears c.members).length ∧
        c.years_appeared.length = c.frequency_count) ∧
    (∀ (θ : ℚ) (t1 t2 t3 : Nat) (qs : List Question) (c : Clusterer.ClusterTC),
      c ∈ Clusterer.clusterModuleQuestionsTC θ t1 t2 t3 qs →
        c.frequency_count = c.members.length) := by
  constructor
  · intro fa θ t1 t2 t3 m qs c hc
    unfold SvcClustering.clusterModuleQuestionsSvc at hc
    rcases List.mem_map.mp hc with ⟨rc, _, rfl⟩
    exact ⟨rfl, Py.length_pySortStrs _⟩
  · intro θ t1 t2 t3 qs c hc
    unfold Clusterer.clusterModuleQuestionsTC at hc
    rcases List.mem_filterMap.mp hc with ⟨ms, _, hms⟩
    cases ms with
    | nil => simp [Clusterer.createTopicClusterTC] at hms
    | cons q rest =>
      obtain rfl := Option.some.inj hms
      rfl

/-- Concrete question used by the C1 witness. -/
def c1q : Question :=
  { id := 1, question_number := S "1", text := S "Define entropy of a system",
    normalized_text := S "", marks := some 3, part := S "A",
    embedding := none, paper := { id := 1, year := S "2021" } }

/-- C1 witness: a one-question service-path clustering run, with the
theorem's hypothesis discharged at it. -/
theorem claim_C1_witness :
    SvcClustering.createTopicClusterSvc 5 3 2 none c1q [c1q]
        (SvcClustering.normalizeText c1q.text)
      ∈ SvcClustering.clusterModuleQuestionsSvc true (3/10) 5 3 2 none [c1q] ∧
    (SvcClustering.createTopicClusterSvc 5 3 2 none c1q [c1q]
        (SvcClustering.normalizeText c1q.text)).frequency_count
      = (SvcClustering.validYears
          (SvcClustering.createTopicClusterSvc 5 3 2 none c1q [c1q]
            (SvcClustering.normalizeText c1q.text)).members).length := by
  have hmem : SvcClustering.createTopicClusterSvc 5 3 2 none c1q [c1q]
      (SvcClustering.normalizeText c1q.text)
      ∈ SvcClustering.clusterModuleQuestionsSvc true (3/10) 5 3 2 none [c1q] := by
    rw [show SvcClustering.clusterModuleQuestionsSvc true (3/10) 5 3 2 none [c1q]
        = [SvcClustering.createTopicClusterSvc 5 3 2 none c1q [c1q]
            (SvcClustering.normalizeText c1q.text)] from rfl]
    exact List.mem_singleton_self _
  exact ⟨hmem,
    (claim_C1_amended.1 true (3/10) 5 3 2 none [c1q] _ hmem).1⟩

namespace Clusterer

theorem tcGatherGo_nil (θ : ℚ) (assigned : List Nat) :
    tcGatherGo θ [] assigned = [] := rfl

theorem tcGatherGo_cons (θ : ℚ) (q : Question) (rest : List Question)
    (assigned : List Nat) :
    tcGatherGo θ (q :: rest) assigned =
      if q.id ∈ assigned then tcGatherGo θ rest assigned
      else
        (rest.foldl (fun (acc : List Question × List Nat) q2 =>
          if q2.id ∈ acc.2 then acc
          else if (θ : ℝ) ≤ calcSimilarity q q2 then
            (acc.1 ++ [q2], acc.2 ++ [q2.id])
          else acc) ([q], assigned ++ [q.id])).1 ::
        tcGatherGo θ rest
          (rest.foldl (fun (acc : List Question × List Nat) q2 =>
            if q2.id ∈ acc.2 then acc
            else if (θ : ℝ) ≤ calcSimilarity q q2 then
              (acc.1 ++ [q2], acc.2 ++ [q2.id])
            else acc) ([q], assigned ++ [q.id])).2 := rfl

end Clusterer

/-- The two same-year questions of the C1 counterexample. -/
def c1qa : Question :=
  { id := 1, question_number := S "11a", text := S "carnot physics",
    normalized_text := S "carnot physics", marks := some 7, part := S "B",
    embedding := none, paper := { id := 1, year := S "2021" } }

def c1qb : Question :=
  { id := 2, question_number := S "11a", text := S "carnot physics",
    normalized_text := S "carnot physics", marks := some 7, part := S "B",
    embedding := none, paper := { id := 2, year := S "2021" } }

/-- C1 (counterexample): a `TopicClusterer` run on two identical questions
from the same year stores `frequency_count = 2` while `years_appeared`
has 1 element — the stored count is the raw member count, not
`|years_appeared|`. -/
theorem claim_C1_counterexample :
    (Clusterer.clusterModuleQuestionsTC (3/4) 4 3 2 [c1qa, c1qb]).map
        (fun c => (c.frequency_count, c.years_appeared.length)) = [(2, 1)]
    ∧ (2 : Nat) ≠ 1 := by
  refine ⟨?_, by decide⟩
  have hsim : (((3/4 : ℚ)) : ℝ) ≤ Clusterer.calcSimilarity c1qa c1qb := by
    have h1 : Clusterer.calcSimilarity c1qa c1qb
        = ((Clusterer.textSimilarity (S "carnot physics") (S "carnot physics") : ℚ) : ℝ) := rfl
    rw [h1, Clusterer.textSimilarity_self (by decide)]
    norm_num
  have hfill : [c1qa, c1qb].map Clusterer.fillNorm = [c1qa, c1qb] := by decide
  have hloop : Clusterer.tcGatherGo (3/4) [c1qa, c1qb] [] = [[c1qa, c1qb]] := by
    rw [Clusterer.tcGatherGo_cons]
    rw [if_neg (by simp [c1qa])]
    simp only [List.foldl_cons, List.foldl_nil]
    rw [if_neg (by simp [c1qa, c1qb]), if_pos hsim]
    rw [Clusterer.tcGatherGo_cons]
    rw [if_pos (by simp [c1qa, c1qb])]
    rw [Clusterer.tcGatherGo_nil]
    rfl
  rw [show Clusterer.clusterModuleQuestionsTC (3/4) 4 3 2 [c1qa, c1qb]
      = List.filterMap (Clusterer.createTopicClusterTC 4 3 2)
          (Clusterer.tcGatherGo (3/4) ([c1qa, c1qb].map Clusterer.fillNorm) []) from rfl]
  rw [hfill, hloop]
  decide

namespace SvcClustering

theorem svcGatherGo_nil (fa : Bool) (θ : ℚ) (all : List Question)
    (procd : List Nat) : svcGatherGo fa θ all [] procd = [] := rfl

theorem svcGatherGo_cons (fa : Bool) (θ : ℚ) (all : List Question)
    (q : Question) (rest : List Question) (procd : List Nat) :
    svcGatherGo fa θ all (q :: rest) procd =
      if q.id ∈ procd then svcGatherGo fa θ all rest procd
      else
        (q, (svcInner fa θ q all [q] (procd ++ [q.id])).1) ::
        svcGatherGo fa θ all rest (svcInner fa θ q all [q] (procd ++ [q.id])).2 := rfl

end SvcClustering

/-- The two questions of the C5 example (their service-normalized texts
equal their raw texts). -/
def c5qa : Question :=
  { id := 1, question_number := S "1",
    text := S "define entropy thermodynamic system",
    normalized_text := S "", marks := some 3, part := S "A",
    embedding := none, paper := { id := 1, year := S "2021" } }

def c5qb : Question :=
  { id := 2, question_number := S "2",
    text := S "explain entropy concept thermodynamics",
    normalized_text := S "", marks := some 3, part := S "A",
    embedding := none, paper := { id := 2, year := S "2022" } }

/-- Shared computation: the Jaccard token overlap of the two C5 texts is
exactly 1/7. -/
theorem c5_jaccard :
    SvcClustering.jaccardSvc (S "define entropy thermodynamic system")
      (S "explain entropy concept thermodynamics") = 1/7 := by
  have hi : (((Py.splitWs (S "define entropy thermodynamic system")).dedup).filter
      (fun w => decide (w ∈ (Py.splitWs (S "explain entropy concept thermodynamics")).dedup))).length
      = 1 := by decide
  have hu : (((Py.splitWs (S "define entropy thermodynamic system")).dedup
      ++ (Py.splitWs (S "explain entropy concept thermodynamics")).dedup).dedup).length
      = 7 := by decide
  unfold SvcClustering.jaccardSvc
  rw [if_neg (by decide), if_neg (by decide), hi, hu]
  norm_num

/-- Shared computation: the rapidfuzz token-sort score of the two C5
texts is at least 0.3 (it is 52/73). -/
theorem c5_fuzzy :
    (3/10 : ℚ) ≤ RapidFuzz.tokenSortScore
      (S "define entropy thermodynamic system")
      (S "explain entropy concept thermodynamics") := by
  have hs1 : Py.sjoin (Py.pySortStrs (Py.splitWs (S "define entropy thermodynamic system")))
      = S "define entropy system thermodynamic" := by decide
  have hs2 : Py.sjoin (Py.pySortStrs (Py.splitWs (S "explain entropy concept thermodynamics")))
      = S "concept entropy explain thermodynamics" := by decide
  have hl : RapidFuzz.lcs (S "define entropy system thermodynamic")
      (S "concept entropy explain thermodynamics") = 26 := by decide
  have hl1 : (S "define entropy system thermodynamic").length = 35 := by decide
  have hl2 : (S "concept entropy explain thermodynamics").length = 38 := by decide
  rw [RapidFuzz.tokenSortScore, hs1, hs2, RapidFuzz.indelSim, hl]
  simp only [hl1, hl2]
  norm_num

/-- C5 (counterexample): the Jaccard token overlap of the two example
normalized texts is 1/7, which is NOT at least 0.3. -/
theorem claim_C5_counterexample :
    SvcClustering.jaccardSvc (S "define entropy thermodynamic system")
      (S "explain entropy concept thermodynamics") = 1/7
    ∧ ¬ ((3/10 : ℚ) ≤ 1/7) :=
  ⟨c5_jaccard, by norm_num⟩

/-- C5 (amended): at threshold 0.3 the two example questions ARE judged
similar and placed in one cluster — but by the fuzzy stage
(token_sort_ratio = 52/73), not by Jaccard (1/7 < 0.3); with the fuzzy
library unavailable they are not judged similar at all. -/
theorem claim_C5_amended :
    SvcClustering.normalizeText c5qa.text = c5qa.text
    ∧ SvcClustering.normalizeText c5qb.text = c5qb.text
    ∧ SvcClustering.areSimilar true (3/10) c5qa c5qb = true
    ∧ (SvcClustering.clusterModuleQuestionsSvc true (3/10) 5 3 2 none
        [c5qa, c5qb]).map (fun c => c.members) = [[c5qa, c5qb]]
    ∧ SvcClustering.areSimilar false (3/10) c5qa c5qb = false := by
  have hn1 : SvcClustering.normalizeText c5qa.text = c5qa.text := by decide
  have hn2 : SvcClustering.normalizeText c5qb.text = c5qb.text := by decide
  have hsimT : SvcClustering.areSimilar true (3/10) c5qa c5qb = true := by
    unfold SvcClustering.areSimilar
    rw [hn1, hn2]
    rw [if_neg (by decide)]
    rw [if_pos (by
      rw [Bool.true_and]
      exact decide_eq_true c5_fuzzy)]
  have hsimF : SvcClustering.areSimilar false (3/10) c5qa c5qb = false := by
    unfold SvcClustering.areSimilar
    rw [hn1, hn2]
    rw [if_neg (by decide)]
    rw [if_neg (by simp)]
    rw [if_neg (by
      show ¬ (decide ((3/10 : ℚ) ≤ SvcClustering.jaccardSvc c5qa.text c5qb.text) = true)
      rw [show SvcClustering.jaccardSvc c5qa.text c5qb.text = 1/7 from c5_jaccard]
      simp only [decide_eq_true_eq]
      norm_num)]
    rfl
  refine ⟨hn1, hn2, hsimT, ?_, hsimF⟩
  have hinner : SvcClustering.svcInner true (3/10) c5qa [c5qa, c5qb] [c5qa]
      ([] ++ [c5qa.id]) = ([c5qa, c5qb], [1, 2]) := by
    unfold SvcClustering.svcInner
    simp only [List.foldl_cons, List.foldl_nil]
    rw [if_pos (show c5qa.id ∈ [] ++ [c5qa.id] by simp)]
    rw [if_neg (show ¬ c5qb.id ∈ (([c5qa], [] ++ [c5qa.id]) : List Question × List Nat).2 by
      simp [c5qa, c5qb])]
    rw [hsimT, if_pos rfl]
    rfl
  have hloop : SvcClustering.svcGatherGo true (3/10) [c5qa, c5qb] [c5qa, c5qb] []
      = [(c5qa, [c5qa, c5qb])] := by
    rw [SvcClustering.svcGatherGo_cons]
    rw [if_neg (by simp [c5qa])]
    rw [hinner]
    rw [SvcClustering.svcGatherGo_cons]
    rw [if_pos (by simp [c5qb])]
    rw [SvcClustering.svcGatherGo_nil]
  rw [show SvcClustering.clusterModuleQuestionsSvc true (3/10) 5 3 2 none [c5qa, c5qb]
      = (SvcClustering.svcGatherGo true (3/10) [c5qa, c5qb] [c5qa, c5qb] []).map
          (fun rc => SvcClustering.createTopicClusterSvc 5 3 2 none rc.1 rc.2
            (SvcClustering.normalizeText rc.1.text)) from rfl]
  rw [hloop]
  rfl

/-! ### Extractor lemmas -/

namespace Py

/-- Any payload produced by `searchPos` comes from a successful match of
the underlying matcher on some suffix. -/
theorem searchPos_payload {α : Type} {m : Str → Option α} :
    ∀ {s : Str} {pa : Nat × α}, searchPos m s = some pa → ∃ t, m t = some pa.2 := by
  intro s
  induction s with
  | nil =>
    intro pa h
    have h1 : (m []).map ((0, ·) : α → Nat × α) = some pa := h
    cases hm : m [] with
    | none => rw [hm] at h1; simp at h1
    | some a =>
      rw [hm] at h1
      have h2 : some ((0 : Nat), a) = some pa := h1
      cases h2
      exact ⟨[], hm⟩
  | cons c rest ih =>
    intro pa h
    have h1 : (match m (c :: rest) with
        | some a => some ((0 : Nat), a)
        | none => (searchPos m rest).map (fun pb => (pb.1 + 1, pb.2))) = some pa := h
    cases hm : m (c :: rest) with
    | some a =>
      rw [hm] at h1
      have h2 : some ((0 : Nat), a) = some pa := h1
      cases h2
      exact ⟨c :: rest, hm⟩
    | none =>
      rw [hm] at h1
      have h2 : (searchPos m rest).map (fun pb => (pb.1 + 1, pb.2)) = some pa := h1
      cases hr : searchPos m rest with
      | none => rw [hr] at h2; simp at h2
      | some pb =>
        rw [hr] at h2
        have h3 : some (pb.1 + 1, pb.2) = some pa := h2
        cases h3
        obtain ⟨t, ht⟩ := ih hr
        exact ⟨t, ht⟩

end Py

namespace Extractor

open Py

/-- A successful `try12` run hands its continuation a nonempty all-digit
capture. -/
theorem try12_payload {α : Type} {tail : Str → Str → Option α} {s : Str} {v : α}
    (h : try12 tail s = some v) :
    ∃ ds r, ds ≠ [] ∧ ds.all isDigitC = true ∧ tail ds r = some v := by
  cases s with
  | nil => exact absurd (show (none : Option α) = some v from h) (by simp)
  | cons a rest =>
    cases rest with
    | nil =>
      have h1 : (if isDigitC a = true then tail [a] [] else none) = some v := h
      by_cases ha : isDigitC a = true
      · rw [if_pos ha] at h1
        exact ⟨[a], [], by simp, by simp [ha], h1⟩
      · rw [if_neg ha] at h1
        simp at h1
    | cons b r =>
      have h1 : (if (isDigitC a && isDigitC b) = true then
          (match tail [a, b] r with
            | some w => some w
            | none => if isDigitC a = true then tail [a] (b :: r) else none)
          else if isDigitC a = true then tail [a] (b :: r) else none) = some v := h
      by_cases hab : (isDigitC a && isDigitC b) = true
      · rw [if_pos hab] at h1
        simp only [Bool.and_eq_true] at hab
        cases h2 : tail [a, b] r with
        | some w =>
          rw [h2] at h1
          have h3 : some w = some v := h1
          cases h3
          exact ⟨[a, b], r, by simp, by simp [hab.1, hab.2], h2⟩
        | none =>
          rw [h2] at h1
          have h3 : (if isDigitC a = true then tail [a] (b :: r) else none) = some v := h1
          rw [if_pos hab.1] at h3
          exact ⟨[a], b :: r, by simp, by simp [hab.1], h3⟩
      · rw [if_neg hab] at h1
        by_cases ha : isDigitC a = true
        · rw [if_pos ha] at h1
          exact ⟨[a], b :: r, by simp, by simp [ha], h1⟩
        · rw [if_neg ha] at h1
          simp at h1

/-- What `mTrailNum` captures is a nonempty digit string. -/
theorem mTrailNum_digits {s ds : Str} (h : mTrailNum s = some ds) :
    ds ≠ [] ∧ ds.all isDigitC = true := by
  unfold mTrailNum at h
  cases he : eatWs1 s with
  | none => rw [he] at h; exact absurd h (by simp)
  | some r =>
    rw [he] at h
    have h1 : try12 (fun ds r2 =>
        if ((r2.dropWhile isWs).isEmpty : Bool) = true then some ds else none) r
        = some ds := h
    rcases try12_payload h1 with ⟨ds2, r2, hne, hdig, htail⟩
    have h2 : (if ((r2.dropWhile isWs).isEmpty : Bool) = true then some ds2 else none)
        = some ds := htail
    by_cases hc : ((r2.dropWhile isWs).isEmpty : Bool) = true
    · rw [if_pos hc] at h2
      cases h2
      exact ⟨hne, hdig⟩
    · rw [if_neg hc] at h2
      exact absurd h2 (by simp)

/-- `int()` succeeds on every nonempty digit string. -/
theorem pyInt_ok_of_digits {ds : Str} (h1 : ds ≠ []) (h2 : ds.all isDigitC = true) :
    ∃ n, pyInt ds = .ok n := by
  unfold pyInt
  rw [if_pos ⟨h1, h2⟩]
  exact ⟨_, rfl⟩

end Extractor

namespace Extractor

open Py

/-- The `Except` bind on a success reduces to the continuation. -/
theorem exc_bind_ok {α β : Type} (a : α) (f : α → Except Unit β) :
    (Except.ok a >>= f) = f a := rfl

/-- The `Except` bind on a failure propagates the failure. -/
theorem exc_bind_error {α β : Type} (e : Unit) (f : α → Except Unit β) :
    ((Except.error e : Except Unit α) >>= f) = Except.error e := rfl

/-- `pure` in the `Except` monad is `.ok`. -/
theorem exc_pure_eq_ok {α : Type} (a : α) : (pure a : Except Unit α) = .ok a := rfl

/-- An if-then-else of two successes is a success. -/
theorem ite_ok_ok {α : Type} (c : Prop) [Decidable c] (a b : α) :
    ∃ v, (if c then (Except.ok a : Except Unit α) else .ok b) = .ok v := by
  by_cases h : c
  · exact ⟨a, if_pos h⟩
  · exact ⟨b, if_neg h⟩

/-- The guarded trailing-marks extraction (`try/except` plus the explicit
`<= 14` test) only ever stores values ≤ 14. -/
theorem capMarks_fst_le {qt : Str} {m : Nat} (h : (capMarks qt).1 = some m) :
    m ≤ 14 := by
  unfold capMarks at h
  cases hs : searchPos mMarksEnd qt with
  | none =>
    rw [hs] at h
    exact absurd (show (none : Option Nat) = some m from h) (by simp)
  | some pd =>
    rw [hs] at h
    have h1 : (match pyInt pd.2 with
        | Except.ok n => if n ≤ 14 then ((some n : Option Nat), strip (qt.take pd.1))
            else (none, qt)
        | Except.error _ => ((none : Option Nat), qt)).1 = some m := h
    cases hp : pyInt pd.2 with
    | error e =>
      rw [hp] at h1
      exact absurd (show (none : Option Nat) = some m from h1) (by simp)
    | ok n =>
      rw [hp] at h1
      have h2 : (if n ≤ 14 then ((some n : Option Nat), strip (qt.take pd.1))
          else (none, qt)).1 = some m := h1
      by_cases h14 : n ≤ 14
      · rw [if_pos h14] at h2
        have h3 : some n = some m := h2
        injection h3 with h4
        subst h4
        exact h14
      · rw [if_neg h14] at h2
        exact absurd (show (none : Option Nat) = some m from h2) (by simp)

/-- The fallback path's chained caps (`capMarksBare` after `capMarks`)
also only ever store values ≤ 14. -/
theorem capMarksBare_capMarks_fst_le {qt : Str} {m : Nat}
    (h : (capMarksBare (capMarks qt)).1 = some m) : m ≤ 14 := by
  unfold capMarksBare at h
  cases hm : (capMarks qt).1 with
  | some m2 =>
    rw [hm] at h
    exact capMarks_fst_le (show (capMarks qt).1 = some m from h)
  | none =>
    rw [hm] at h
    cases hs : searchPos mTrailNum (capMarks qt).2 with
    | none =>
      rw [hs] at h
      have h2 : (capMarks qt).1 = some m := h
      rw [hm] at h2
      exact Option.noConfusion h2
    | some pd =>
      rw [hs] at h
      have h1 : (match pyInt pd.2 with
          | Except.ok n => if n ≤ 14 then ((some n : Option Nat),
              strip ((capMarks qt).2.take pd.1))
            else (none, (capMarks qt).2)
          | Except.error _ => ((none : Option Nat), (capMarks qt).2)).1 = some m := h
      cases hp : pyInt pd.2 with
      | error e =>
        rw [hp] at h1
        exact absurd (show (none : Option Nat) = some m from h1) (by simp)
      | ok n =>
        rw [hp] at h1
        have h2 : (if n ≤ 14 then ((some n : Option Nat),
            strip ((capMarks qt).2.take pd.1)) else (none, (capMarks qt).2)).1
            = some m := h1
        by_cases h14 : n ≤ 14
        · rw [if_pos h14] at h2
          have h3 : some n = some m := h2
          injection h3 with h4
          subst h4
          exact h14
        · rw [if_neg h14] at h2
          exact absurd (show (none : Option Nat) = some m from h2) (by simp)

end Extractor

namespace Extractor

open Py

/-- The closing accept/reject gate of `processSubQ`: whatever question it
emits carries the supplied (already capped) marks, text ≥ 10 characters
with a leading letter, and part "B". -/
theorem final_ite_spec {qt : Str} {num : Str} {mk : Nat} {mh : Option Nat}
    (hmk : mk ≤ 14) :
    ∃ qo, (if 10 ≤ qt.length ∧ headIsAlpha qt = true then
        (Except.ok (some { question_number := num, text := qt, marks := mk,
                           part := S "B", module_hint := mh })
          : Except Unit (Option ExQ))
      else .ok none) = .ok qo
      ∧ ∀ q, qo = some q →
        q.marks ≤ 14 ∧ 10 ≤ q.text.length ∧ headIsAlpha q.text = true
          ∧ q.part = S "B" := by
  by_cases h : 10 ≤ qt.length ∧ headIsAlpha qt = true
  · refine ⟨_, if_pos h, fun q hq => ?_⟩
    injection hq with h2
    subst h2
    exact ⟨hmk, h.1, h.2, rfl⟩
  · exact ⟨none, if_neg h, fun q hq => Option.noConfusion hq⟩

/-- `processSubQ` always succeeds (its one unguarded `int()` only ever
receives the digit capture of the trailing-number pattern), and any
question it emits satisfies the part-B invariants. -/
theorem processSubQ_spec (mn : Nat) (t : Str × Char × Str) :
    ∃ qo, processSubQ mn t = .ok qo ∧ ∀ q, qo = some q →
      q.marks ≤ 14 ∧ 10 ≤ q.text.length ∧ headIsAlpha q.text = true
        ∧ q.part = S "B" := by
  simp only [processSubQ]
  cases hm : (capMarks (collapseWs (strip t.2.2))).1 with
  | some mval =>
    simp only [hm, exc_pure_eq_ok, exc_bind_ok]
    have hmk : (if mval = 0 then 7 else mval) ≤ 14 := by
      by_cases h0 : mval = 0
      · rw [if_pos h0]; decide
      · rw [if_neg h0]; exact capMarks_fst_le hm
    exact final_ite_spec hmk
  | none =>
    simp only [hm]
    cases hs : searchPos mTrailNum (capMarks (collapseWs (strip t.2.2))).2 with
    | none =>
      simp only [hs, exc_pure_eq_ok, exc_bind_ok]
      exact final_ite_spec (by decide)
    | some pd =>
      obtain ⟨t2, ht2⟩ := searchPos_payload hs
      obtain ⟨hne, hdig⟩ := mTrailNum_digits ht2
      obtain ⟨n, hn⟩ := pyInt_ok_of_digits hne hdig
      simp only [hs, hn, exc_bind_ok]
      by_cases h14 : n ≤ 14
      · rw [if_pos h14]
        simp only [exc_pure_eq_ok, exc_bind_ok]
        have hmk : (if n = 0 then 7 else n) ≤ 14 := by
          by_cases h0 : n = 0
          · rw [if_pos h0]; decide
          · rw [if_neg h0]; exact h14
        exact final_ite_spec hmk
      · rw [if_neg h14]
        simp only [exc_pure_eq_ok, exc_bind_ok]
        exact final_ite_spec (by decide)

end Extractor

namespace Extractor

open Py

/-- The accumulate-append `foldlM` pattern of the extractor succeeds as
soon as every step's effect succeeds. -/
theorem foldlM_append_ok {α γ β : Type} (f : α → Except Unit γ) (g : γ → List β)
    (hf : ∀ x, ∃ y, f x = .ok y) :
    ∀ (xs : List α) (init : List β),
      ∃ out, xs.foldlM (fun acc x => do
        let y ← f x
        pure (acc ++ g y)) init = .ok out := by
  intro xs
  induction xs with
  | nil => intro init; exact ⟨init, rfl⟩
  | cons x rest ih =>
    intro init
    obtain ⟨y, hy⟩ := hf x
    obtain ⟨out, hout⟩ := ih (init ++ g y)
    refine ⟨out, ?_⟩
    rw [List.foldlM_cons, hy]
    exact hout

/-- Membership inversion for the accumulate-append `foldlM` pattern:
every output element comes from the initial accumulator or from one
step's effect. -/
theorem foldlM_append_mem {α γ β : Type} (f : α → Except Unit γ) (g : γ → List β) :
    ∀ (xs : List α) (init out : List β),
      xs.foldlM (fun acc x => do
        let y ← f x
        pure (acc ++ g y)) init = .ok out →
      ∀ b ∈ out, b ∈ init ∨ ∃ x ∈ xs, ∃ y, f x = .ok y ∧ b ∈ g y := by
  intro xs
  induction xs with
  | nil =>
    intro init out h b hb
    have h2 : Except.ok init = Except.ok out := h
    injection h2 with h3
    subst h3
    exact Or.inl hb
  | cons x rest ih =>
    intro init out h b hb
    rw [List.foldlM_cons] at h
    cases hy : f x with
    | error e =>
      rw [hy] at h
      exact absurd (show (Except.error e : Except Unit (List β)) = .ok out from h)
        (by simp)
    | ok y =>
      rw [hy] at h
      have h2 : rest.foldlM (fun acc x => do
          let y ← f x
          pure (acc ++ g y)) (init ++ g y) = .ok out := h
      rcases ih (init ++ g y) out h2 b hb with hin | ⟨x2, hx2, y2, hy2, hb2⟩
      · rcases List.mem_append.mp hin with hin2 | hin2
        · exact Or.inl hin2
        · exact Or.inr ⟨x, List.mem_cons_self x rest, y, hy, hin2⟩
      · exact Or.inr ⟨x2, List.mem_cons_of_mem x hx2, y2, hy2, hb2⟩

/-- `processModulePair` always succeeds. -/
theorem processModulePair_ok (p : Str × Str) :
    ∃ out, processModulePair p = .ok out := by
  simp only [processModulePair]
  cases hr : romanVal (strip p.1) with
  | some v =>
    simp only [hr]
    refine foldlM_append_ok (processSubQ v) Option.toList ?_ _ _
    intro t
    obtain ⟨qo, hok, _⟩ := processSubQ_spec v t
    exact ⟨qo, hok⟩
  | none =>
    simp only [hr]
    cases hp : pyInt (strip p.1) with
    | ok v =>
      simp only [hp]
      refine foldlM_append_ok (processSubQ v) Option.toList ?_ _ _
      intro t
      obtain ⟨qo, hok, _⟩ := processSubQ_spec v t
      exact ⟨qo, hok⟩
    | error e =>
      simp only [hp]
      exact ⟨[], rfl⟩

/-- Membership inversion for `processModulePair`: every emitted question
comes from a successful `processSubQ`. -/
theorem processModulePair_mem {p : Str × Str} {out : List ExQ} {q : ExQ}
    (h : processModulePair p = .ok out) (hq : q ∈ out) :
    ∃ mn t, processSubQ mn t = .ok (some q) := by
  simp only [processModulePair] at h
  cases hr : romanVal (strip p.1) with
  | some v =>
    rw [hr] at h
    have h2 := foldlM_append_mem (processSubQ v) Option.toList _ _ _ h q hq
    rcases h2 with hin | ⟨t, _, y, hy, hmem⟩
    · exact absurd hin (List.not_mem_nil q)
    · cases y with
      | none => exact absurd hmem (List.not_mem_nil q)
      | some q2 =>
        rcases List.mem_singleton.mp hmem with rfl
        exact ⟨v, t, hy⟩
  | none =>
    rw [hr] at h
    cases hp : pyInt (strip p.1) with
    | ok v =>
      rw [hp] at h
      have h2 := foldlM_append_mem (processSubQ v) Option.toList _ _ _ h q hq
      rcases h2 with hin | ⟨t, _, y, hy, hmem⟩
      · exact absurd hin (List.not_mem_nil q)
      · cases y with
        | none => exact absurd hmem (List.not_mem_nil q)
        | some q2 =>
          rcases List.mem_singleton.mp hmem with rfl
          exact ⟨v, t, hy⟩
    | error e =>
      rw [hp] at h
      have h2 : Except.ok ([] : List ExQ) = Except.ok out := h
      injection h2 with h3
      subst h3
      exact absurd hq (List.not_mem_nil q)

/-- `_extract_part_b` always succeeds. -/
theorem extractPartB_ok (text : Str) : ∃ out, extractPartB text = .ok out := by
  unfold extractPartB
  exact foldlM_append_ok processModulePair (fun l => l) processModulePair_ok _ _

/-- Membership inversion for `_extract_part_b`. -/
theorem extractPartB_mem {text : Str} {out : List ExQ} {q : ExQ}
    (h : extractPartB text = .ok out) (hq : q ∈ out) :
    ∃ mn t, processSubQ mn t = .ok (some q) := by
  unfold extractPartB at h
  have h2 := foldlM_append_mem processModulePair (fun l => l) _ _ _ h q hq
  rcases h2 with hin | ⟨p, _, y, hy, hmem⟩
  · exact absurd hin (List.not_mem_nil q)
  · exact processModulePair_mem hy hmem

end Extractor

namespace Extractor

open Py

/-- Every question `processPartASpan` accepts passed the final length
and leading-letter gate. -/
theorem processPartASpan_some {paText : Str} {item : (Nat × Str) × Option Nat}
    {q : ExQ} (h : processPartASpan paText item = some q) :
    10 ≤ q.text.length ∧ headIsAlpha q.text = true := by
  simp only [processPartASpan] at h
  cases hp : pyInt item.1.2 with
  | error e =>
    rw [hp] at h
    exact absurd (show (none : Option ExQ) = some q from h) (by simp)
  | ok n =>
    simp only [hp] at h
    split at h
    · exact absurd h (by simp)
    · split at h
      · rename_i hC
        injection h with h2
        subst h2
        exact ⟨hC.1, hC.2⟩
      · exact absurd h (by simp)

/-- Membership inversion for `_extract_part_a`: every emitted question
passed the length and leading-letter gate. -/
theorem extractPartA_mem {text : Str} {q : ExQ} (h : q ∈ extractPartA text) :
    10 ≤ q.text.length ∧ headIsAlpha q.text = true := by
  simp only [extractPartA] at h
  cases hp : partASection text with
  | none =>
    rw [hp] at h
    exact absurd (show q ∈ ([] : List ExQ) from h) (List.not_mem_nil q)
  | some sec =>
    simp only [hp] at h
    rw [List.mem_filterMap] at h
    obtain ⟨item, _, hps⟩ := h
    exact processPartASpan_some hps

/-- A default-filled optional marks value stays within the cap when both
possibilities do. -/
theorem getD_marks_le {o : Option Nat} (ho : ∀ m, o = some m → m ≤ 14) {d : Nat}
    (hd : d ≤ 14) : o.getD d ≤ 14 := by
  cases o with
  | none => exact hd
  | some m => exact ho m rfl

/-- Every question the fallback loop emits has capped marks and text
passing the length and leading-letter gate. -/
theorem fbGo_mem : ∀ (f : Nat) (ls : List Str) (cm : Option Nat) (q : ExQ),
    q ∈ fbGo f ls cm →
    q.marks ≤ 14 ∧ 10 ≤ q.text.length ∧ headIsAlpha q.text = true := by
  intro f
  induction f with
  | zero =>
    intro ls cm q h
    cases ls with
    | nil => exact absurd h (List.not_mem_nil q)
    | cons l rest => exact absurd h (List.not_mem_nil q)
  | succ f ih =>
    intro ls cm q h
    cases ls with
    | nil => exact absurd h (List.not_mem_nil q)
    | cons l rest =>
      simp only [fbGo] at h
      split at h
      · exact ih rest cm q h
      · split at h
        · exact ih rest _ q h
        · split at h
          · exact ih rest _ q h
          · split at h
            · exact ih rest _ q h
            · split at h
              · exact ih rest _ q h
              · rw [List.mem_append] at h
                rcases h with h | h
                · split at h
                  · rename_i hC
                    rcases List.mem_singleton.mp h with rfl
                    refine ⟨?_, hC.1, hC.2⟩
                    refine getD_marks_le
                      (fun m hm => capMarksBare_capMarks_fst_le hm) ?_
                    split <;> decide
                  · exact absurd h (List.not_mem_nil q)
                · exact ih _ _ _ h

/-- The deduplication pass only ever keeps questions of its input. -/
theorem dedupGo_subset : ∀ (qs : List ExQ) (seen : List (Str × Str)) (q : ExQ),
    q ∈ dedupGo qs seen → q ∈ qs := by
  intro qs
  induction qs with
  | nil => intro seen q h; exact absurd h (List.not_mem_nil q)
  | cons a rest ih =>
    intro seen q h
    simp only [dedupGo] at h
    split at h
    · rcases List.mem_cons.mp h with rfl | h2
      · exact List.mem_cons_self _ _
      · exact List.mem_cons_of_mem a (ih _ _ h2)
    · exact List.mem_cons_of_mem a (ih _ _ h)


end Extractor

/-- C7 counterexample: the claim fails on the Part A path.  On the span
"What is entropy in detail? (99marks)" the per-span extraction of
`_extract_part_a` parses the trailing marks 99 — far above the cap of
14 — and stores it unfiltered as the question's marks: the `<= 14`
false-positive rejection exists only on the Part B and fallback paths. -/
theorem claim_C7_counterexample :
    ∃ q ∈ Extractor.extractPartA
        (S "PART A 1. What is entropy in detail? (99marks) PART B"),
      14 < q.marks := by decide

/-- C7 (amended): the trailing-marks cap is enforced exactly on the
Part B path (`_extract_part_b`) and the fallback path
(`_fallback_extraction`): every question either emits carries marks
≤ 14.  (Part A stores uncapped trailing marks; see the
counterexample.) -/
theorem claim_C7_amended (s : Str) :
    (∀ out, Extractor.extractPartB s = .ok out → ∀ q ∈ out, q.marks ≤ 14)
    ∧ ∀ q ∈ Extractor.fallbackExtraction s, q.marks ≤ 14 := by
  constructor
  · intro out hout q hq
    obtain ⟨mn, t, hok⟩ := Extractor.extractPartB_mem hout hq
    obtain ⟨qo, hok2, hinv⟩ := Extractor.processSubQ_spec mn t
    rw [hok] at hok2
    injection hok2 with h3
    exact (hinv q h3.symm).1
  · intro q hq
    exact (Extractor.fbGo_mem _ _ _ q hq).1

/-- C7 witness: on a concrete Part B paper the extracted question's
marks (the default 7) respect the cap. -/
theorem claim_C7_witness :
    ({ question_number := S "11a",
       text := S "Derive the Carnot efficiency expression clearly",
       marks := 7, part := S "B", module_hint := some 1 } : ExQ).marks ≤ 14 :=
  (claim_C7_amended
      (S "PART B Module 1 11 a) Derive the Carnot efficiency expression clearly")).1
    [{ question_number := S "11a",
       text := S "Derive the Carnot efficiency expression clearly",
       marks := 7, part := S "B", module_hint := some 1 }]
    (by rfl)
    { question_number := S "11a",
      text := S "Derive the Carnot efficiency expression clearly",
      marks := 7, part := S "B", module_hint := some 1 }
    (List.mem_cons_self _ _)

/-- C8: question extraction is total — for every input string
`extract_questions` returns a list (possibly empty) and never raises:
its one unguarded `int()` call only ever receives the nonempty digit
capture of the trailing-number pattern, which always parses. -/
theorem claim_C8 (s : Str) : ∃ qs, Extractor.extractQuestions s = .ok qs := by
  obtain ⟨pb, hpb⟩ := Extractor.extractPartB_ok (Extractor.cleanText s)
  simp only [Extractor.extractQuestions, hpb, Extractor.exc_bind_ok,
    Extractor.exc_pure_eq_ok]
  exact ⟨_, rfl⟩

/-- C9: every question record extraction outputs — through the primary
Part A / Part B paths, the fallback path, and the final deduplication
alike — has text at least 10 characters long that starts with a
letter. -/
theorem claim_C9 (s : Str) (qs : List ExQ)
    (h : Extractor.extractQuestions s = .ok qs) :
    ∀ q ∈ qs, 10 ≤ q.text.length ∧ Extractor.headIsAlpha q.text = true := by
  intro q hq
  obtain ⟨pb, hpb⟩ := Extractor.extractPartB_ok (Extractor.cleanText s)
  simp only [Extractor.extractQuestions, hpb, Extractor.exc_bind_ok,
    Extractor.exc_pure_eq_ok] at h
  injection h with h2
  subst h2
  have hq2 := Extractor.dedupGo_subset _ _ _ hq
  by_cases h5 :
      (Extractor.extractPartA (Extractor.cleanText s) ++ pb).length < 5
  · rw [if_pos h5] at hq2
    exact ⟨(Extractor.fbGo_mem _ _ _ q hq2).2.1,
      (Extractor.fbGo_mem _ _ _ q hq2).2.2⟩
  · rw [if_neg h5] at hq2
    rcases List.mem_append.mp hq2 with hmem | hmem
    · exact Extractor.extractPartA_mem hmem
    · obtain ⟨mn, t, hok⟩ := Extractor.extractPartB_mem hpb hmem
      obtain ⟨qo, hok2, hinv⟩ := Extractor.processSubQ_spec mn t
      rw [hok] at hok2
      injection hok2 with h3
      obtain ⟨_, hlen, halpha, _⟩ := hinv q h3.symm
      exact ⟨hlen, halpha⟩

/-- C9 witness: a concrete fallback-path run; the single extracted
question's text is 29 characters and starts with a letter. -/
theorem claim_C9_witness :
    10 ≤ (S "efine the entropy of a system").length
      ∧ Extractor.headIsAlpha (S "efine the entropy of a system") = true :=
  claim_C9 (S "1 Define the entropy of a system")
    [{ question_number := S "1d", text := S "efine the entropy of a system",
       marks := 3, part := S "A", module_hint := none }]
    (by rfl)
    { question_number := S "1d", text := S "efine the entropy of a system",
      marks := 3, part := S "A", module_hint := none }
    (List.mem_cons_self _ _)
